import Mathlib

/-!
Verification of the HomeKit Data Stream (HDS) core of HAP-python.

This file gives a shallow embedding of the Python sources under
src/pyhap/datastream and src/pyhap/recording, and proves (or refutes)
the spec claims about them.

Conventions of the embedding:
* Python byte strings / bytearrays are `List Nat` with entries in 0..255.
* Python `str` objects are `List Nat` of Unicode code points (Python's
  `len` on a `str` counts code points, which is what `write_utf8` uses).
* Python floats are carried as their 8 little-endian IEEE-754 bytes; a
  float produced by unpacking 4 bytes with struct.unpack "<f" is kept as
  a separate constructor holding those 4 bytes (the widening to double is
  injective, so this is faithful up to renaming; no claim compares floats
  of different provenance for equality).
* Fallible Python code (raise) is `Except PyErr`.
* Recursions that are not structural in Python (the opack decoder, the
  frame splitter, the chunking loop) take an explicit fuel argument; the
  wrappers supply fuel that provably suffices because every iteration
  consumes at least one byte.
-/

set_option maxRecDepth 40000

namespace HAP

/-- Python exception classes that the modelled code can raise. -/
inductive PyErr where
  | valueError
  | indexError
  | unicodeDecodeError
  | unicodeEncodeError
  | overflowError
  | structError
  | attributeError
  | fuelExhausted
  deriving DecidableEq, Repr

/-- Python values flowing through the opack codec
(datastream_parser.py).  `terminator` is the sentinel object
`Magics.TERMINATOR` (a dict whose key is the builtin `type` class; no
decodable value can be equal to it, so a dedicated constructor is
faithful).  `tuple` appears because `struct.unpack` returns 1-tuples
(datastream_parser.py lines 165, 171). -/
inductive PyValue where
  | pynone
  | pybool (b : Bool)
  | int (n : Int)
  | int8w (n : Int)
  | int16w (n : Int)
  | int32w (n : Int)
  | int64w (n : Int)
  | float (bits : List Nat)
  | floatOfF32 (bits : List Nat)
  | float32w (payload : List Nat)
  | float64w (bits : List Nat)
  | seconds2001 (bits : List Nat)
  | str (cps : List Nat)
  | bytes (bs : List Nat)
  | uuid (bs : List Nat)
  | tuple (vs : List PyValue)
  | terminator
  | array (vs : List PyValue)
  | dict (kvs : List (PyValue × PyValue))

mutual

/-- Structural equality on modelled Python values.  (Python's `==` also
equates e.g. `True == 1` and `1 == 1.0` across types; no decoded payload
in any claim relies on such cross-type key collisions, so structural
equality is used.) -/
def pyBEq : PyValue → PyValue → Bool
  | .pynone, .pynone => true
  | .pybool a, .pybool b => a == b
  | .int a, .int b => a == b
  | .int8w a, .int8w b => a == b
  | .int16w a, .int16w b => a == b
  | .int32w a, .int32w b => a == b
  | .int64w a, .int64w b => a == b
  | .float a, .float b => a == b
  | .floatOfF32 a, .floatOfF32 b => a == b
  | .float32w a, .float32w b => a == b
  | .float64w a, .float64w b => a == b
  | .seconds2001 a, .seconds2001 b => a == b
  | .str a, .str b => a == b
  | .bytes a, .bytes b => a == b
  | .uuid a, .uuid b => a == b
  | .tuple a, .tuple b => pyBEqList a b
  | .terminator, .terminator => true
  | .array a, .array b => pyBEqList a b
  | .dict a, .dict b => pyBEqPairs a b
  | _, _ => false

def pyBEqList : List PyValue → List PyValue → Bool
  | [], [] => true
  | a :: as1, b :: bs1 => pyBEq a b && pyBEqList as1 bs1
  | _, _ => false

def pyBEqPairs : List (PyValue × PyValue) → List (PyValue × PyValue) → Bool
  | [], [] => true
  | (k1, v1) :: as1, (k2, v2) :: bs1 => pyBEq k1 k2 && pyBEq v1 v2 && pyBEqPairs as1 bs1
  | _, _ => false

end

/-- Python dict insertion: a duplicate key keeps its position and gets the
new value, a fresh key is appended. -/
def dictInsert (kvs : List (PyValue × PyValue)) (k v : PyValue) : List (PyValue × PyValue) :=
  match kvs with
  | [] => [(k, v)]
  | (k0, v0) :: rest =>
    if pyBEq k0 k then (k0, v) :: rest else (k0, v0) :: dictInsert rest k v

/-- Build a Python dict from a flat key/value pair list (in order). -/
def dictOfPairs (ps : List (PyValue × PyValue)) : List (PyValue × PyValue) :=
  ps.foldl (fun acc kv => dictInsert acc kv.1 kv.2) []

/-- Little-endian byte list of a nonnegative integer, `size` bytes
(Python int.to_bytes(size, little)). -/
def natToLE : Nat → Nat → List Nat
  | 0, _ => []
  | size + 1, v => v % 256 :: natToLE size (v / 256)

/-- Python int.from_bytes(bs, little). -/
def leToNat : List Nat → Nat
  | [] => 0
  | b :: bs => b + 256 * leToNat bs

/-- Python int.from_bytes(bs, big). -/
def beToNat (bs : List Nat) : Nat :=
  bs.foldl (fun acc b => acc * 256 + b) 0

/-- Whether a byte is a UTF-8 continuation byte 0x80..0xBF. -/
def isCont (b : Nat) : Bool :=
  0x80 ≤ b && b ≤ 0xBF

/-- Strict UTF-8 decoding of a byte list to code points, as Python's
bytes.decode("utf-8"): rejects stray continuation bytes, overlong forms,
surrogates and values above 0x10FFFF.  `none` models
UnicodeDecodeError. -/
def utf8Dec : List Nat → Option (List Nat)
  | [] => some []
  | b :: bs =>
    if b ≤ 0x7F then (utf8Dec bs).map (b :: ·)
    else if 0xC2 ≤ b && b ≤ 0xDF then
      match bs with
      | b1 :: bs1 =>
        if isCont b1 then (utf8Dec bs1).map (((b - 0xC0) * 64 + (b1 - 0x80)) :: ·)
        else none
      | [] => none
    else if 0xE0 ≤ b && b ≤ 0xEF then
      match bs with
      | b1 :: b2 :: bs1 =>
        let okB1 :=
          if b = 0xE0 then 0xA0 ≤ b1 && b1 ≤ 0xBF
          else if b = 0xED then 0x80 ≤ b1 && b1 ≤ 0x9F
          else isCont b1
        if okB1 && isCont b2 then
          (utf8Dec bs1).map (((b - 0xE0) * 4096 + (b1 - 0x80) * 64 + (b2 - 0x80)) :: ·)
        else none
      | _ => none
    else if 0xF0 ≤ b && b ≤ 0xF4 then
      match bs with
      | b1 :: b2 :: b3 :: bs1 =>
        let okB1 :=
          if b = 0xF0 then 0x90 ≤ b1 && b1 ≤ 0xBF
          else if b = 0xF4 then 0x80 ≤ b1 && b1 ≤ 0x8F
          else isCont b1
        if okB1 && isCont b2 && isCont b3 then
          (utf8Dec bs1).map
            (((b - 0xF0) * 262144 + (b1 - 0x80) * 4096 + (b2 - 0x80) * 64 + (b3 - 0x80)) :: ·)
        else none
      | _ => none
    else none

/-- UTF-8 encoding of code points (Python str.encode("utf-8")); `none`
models UnicodeEncodeError for surrogates or out-of-range points. -/
def utf8Enc : List Nat → Option (List Nat)
  | [] => some []
  | c :: cs =>
    if 0xD800 ≤ c && c ≤ 0xDFFF then none
    else if c ≤ 0x7F then (utf8Enc cs).map (c :: ·)
    else if c ≤ 0x7FF then
      (utf8Enc cs).map (fun r => (0xC0 + c / 64) :: (0x80 + c % 64) :: r)
    else if c ≤ 0xFFFF then
      (utf8Enc cs).map
        (fun r => (0xE0 + c / 4096) :: (0x80 + c / 64 % 64) :: (0x80 + c % 64) :: r)
    else if c ≤ 0x10FFFF then
      (utf8Enc cs).map
        (fun r =>
          (0xF0 + c / 262144) :: (0x80 + c / 4096 % 64) ::
            (0x80 + c / 64 % 64) :: (0x80 + c % 64) :: r)
    else none

/-- State of DatastreamReader (datastream_parser.py lines 96-236):
byte buffer, read position, and the back-reference table of scalars
tracked so far. -/
structure DatastreamReader where
  data : List Nat
  index : Nat
  compressed : List PyValue

/-- DatastreamReader._ensure (lines 106-110): raise ValueError when fewer
than `length` bytes remain. -/
def DatastreamReader.ensure (r : DatastreamReader) (length : Nat) : Except PyErr Unit :=
  if r.index + length > r.data.length then .error .valueError else .ok ()

/-- DatastreamReader._track (lines 102-104): append a scalar to the
back-reference table and return it. -/
def DatastreamReader.track (r : DatastreamReader) (v : PyValue) : PyValue × DatastreamReader :=
  (v, { r with compressed := r.compressed ++ [v] })

/-- Bounds-checked slice read of `length` bytes, advancing the index;
the common core of the read_intNle / read_data / read_utf8 methods. -/
def DatastreamReader.read_slice (r : DatastreamReader) (length : Nat) :
    Except PyErr (List Nat × DatastreamReader) := do
  r.ensure length
  .ok ((r.data.drop r.index).take length, { r with index := r.index + length })

/-- DatastreamReader.read_tag (lines 121-125). -/
def DatastreamReader.read_tag (r : DatastreamReader) :
    Except PyErr (Nat × DatastreamReader) := do
  r.ensure 1
  .ok (r.data.getD r.index 0, { r with index := r.index + 1 })

/-- DatastreamReader.read_utf8 (lines 175-179): read `length` bytes,
decode them strictly as UTF-8 (UnicodeDecodeError on failure) and track
the resulting str. -/
def DatastreamReader.read_utf8 (r : DatastreamReader) (length : Nat) :
    Except PyErr (PyValue × DatastreamReader) := do
  let (bs, r) ← r.read_slice length
  match utf8Dec bs with
  | some cps => .ok (r.track (.str cps))
  | none => .error .unicodeDecodeError

/-- zip(items[0::2], items[1::2]) of the 0xEF dictionary decode
(datastream_parser.py line 470): pairs up consecutive items, silently
dropping a dangling last item. -/
def pairUp : List PyValue → List (PyValue × PyValue)
  | k :: v :: rest => (k, v) :: pairUp rest
  | _ => []

mutual

/-- DatastreamParser.decode (datastream_parser.py lines 376-471),
dispatching on the tag byte exactly as the Python match statement does.
A tag byte matched by no case falls off the end of the match statement,
so the Python function returns None; that is the final branch here.
The fuel argument only bounds recursion depth; every call consumes at
least one byte, so fuel exceeding the buffer length never runs out. -/
def decodeAux : Nat → DatastreamReader → Except PyErr (PyValue × DatastreamReader)
  | 0, _ => .error .fuelExhausted
  | fuel + 1, r0 => do
    let (tag, r) ← r0.read_tag
    if tag = 0x00 then .error .valueError
    else if tag = 0x01 then .ok (r.track (.pybool true))
    else if tag = 0x02 then .ok (r.track (.pybool false))
    else if tag = 0x03 then .ok (.terminator, r)
    else if tag = 0x04 then .ok (.pynone, r)
    else if tag = 0x05 then do
      let (bs, r) ← r.read_slice 16
      .ok (r.track (.uuid bs))
    else if tag = 0x06 then do
      let (bs, r) ← r.read_slice 8
      .ok (r.track (.tuple [.float bs]))
    else if tag = 0x07 then .ok (r.track (.int (-1)))
    else if 0x08 ≤ tag ∧ tag ≤ 0x2E then .ok (r.track (.int (tag - 0x08 : Nat)))
    else if tag = 0x30 then do
      let (bs, r) ← r.read_slice 1
      .ok (r.track (.int (leToNat bs)))
    else if tag = 0x31 then do
      let (bs, r) ← r.read_slice 2
      .ok (r.track (.int (leToNat bs)))
    else if tag = 0x32 then do
      let (bs, r) ← r.read_slice 4
      .ok (r.track (.int (leToNat bs)))
    else if tag = 0x33 then do
      let (bs, r) ← r.read_slice 8
      .ok (r.track (.int (leToNat bs)))
    else if tag = 0x35 then do
      let (bs, r) ← r.read_slice 4
      .ok (r.track (.tuple [.floatOfF32 bs]))
    else if tag = 0x36 then do
      let (bs, r) ← r.read_slice 8
      .ok (r.track (.tuple [.float bs]))
    else if 0x40 ≤ tag ∧ tag ≤ 0x60 then r.read_utf8 (tag - 0x40)
    else if tag = 0x61 then do
      let (lb, r) ← r.read_slice 1
      r.read_utf8 (leToNat lb)
    else if tag = 0x62 then do
      let (lb, r) ← r.read_slice 2
      r.read_utf8 (leToNat lb)
    else if tag = 0x63 then do
      let (lb, r) ← r.read_slice 4
      r.read_utf8 (leToNat lb)
    else if tag = 0x64 then do
      let (lb, r) ← r.read_slice 8
      r.read_utf8 (leToNat lb)
    else if tag = 0x6F then
      match (r.data.drop r.index).findIdx? (· == 0) with
      | some len => r.read_utf8 len
      | none => .error .valueError
    else if 0x70 ≤ tag ∧ tag ≤ 0x90 then do
      let (bs, r) ← r.read_slice (tag - 0x70)
      .ok (.bytes bs, r)
    else if tag = 0x91 then do
      let (lb, r) ← r.read_slice 1
      let (bs, r) ← r.read_slice (leToNat lb)
      .ok (.bytes bs, r)
    else if tag = 0x92 then do
      let (lb, r) ← r.read_slice 2
      let (bs, r) ← r.read_slice (leToNat lb)
      .ok (.bytes bs, r)
    else if tag = 0x93 then do
      let (lb, r) ← r.read_slice 4
      let (bs, r) ← r.read_slice (leToNat lb)
      .ok (.bytes bs, r)
    else if tag = 0x94 then do
      let (lb, r) ← r.read_slice 8
      let (bs, r) ← r.read_slice (leToNat lb)
      .ok (.bytes bs, r)
    else if tag = 0x9F then
      match (r.data.drop r.index).findIdx? (· == 0x03) with
      | some len => do
        let (bs, r) ← r.read_slice len
        .ok (.bytes bs, r)
      | none => .error .valueError
    else if 0xA0 ≤ tag ∧ tag ≤ 0xCF then
      match r.compressed.get? (tag - 0xA0) with
      | some v => .ok (v, r)
      | none => .error .indexError
    else if 0xD0 ≤ tag ∧ tag ≤ 0xDE then do
      let (vs, r) ← decodeCount fuel (tag - 0xD0) r
      .ok (.array vs, r)
    else if tag = 0xDF then do
      let (vs, r) ← decodeUntilTerm fuel r
      .ok (.array vs, r)
    else if 0xE0 ≤ tag ∧ tag ≤ 0xEE then do
      let (ps, r) ← decodePairs fuel (tag - 0xE0) r
      .ok (.dict (dictOfPairs ps), r)
    else if tag = 0xEF then do
      let (items, r) ← decodeUntilTerm fuel r
      .ok (.dict (dictOfPairs (pairUp items)), r)
    else
      .ok (.pynone, r)

/-- The list comprehension of the length-counted array case
(datastream_parser.py line 451): decode `n` values in sequence. -/
def decodeCount : Nat → Nat → DatastreamReader → Except PyErr (List PyValue × DatastreamReader)
  | 0, _, _ => .error .fuelExhausted
  | _ + 1, 0, r => .ok ([], r)
  | fuel + 1, n + 1, r => do
    let (v, r) ← decodeAux fuel r
    let (vs, r) ← decodeCount fuel n r
    .ok (v :: vs, r)

/-- The dict comprehension of the length-counted dictionary case
(datastream_parser.py lines 461-464): decode key then value, `n`
times. -/
def decodePairs : Nat → Nat → DatastreamReader →
    Except PyErr (List (PyValue × PyValue) × DatastreamReader)
  | 0, _, _ => .error .fuelExhausted
  | _ + 1, 0, r => .ok ([], r)
  | fuel + 1, n + 1, r => do
    let (k, r) ← decodeAux fuel r
    let (v, r) ← decodeAux fuel r
    let (ps, r) ← decodePairs fuel n r
    .ok ((k, v) :: ps, r)

/-- itertools.takewhile(x != Magics.TERMINATOR, decode stream) of the
terminated array / dictionary cases (lines 452-456, 465-469). -/
def decodeUntilTerm : Nat → DatastreamReader → Except PyErr (List PyValue × DatastreamReader)
  | 0, _ => .error .fuelExhausted
  | fuel + 1, r => do
    let (v, r) ← decodeAux fuel r
    if pyBEq v .terminator then .ok ([], r)
    else do
      let (vs, r) ← decodeUntilTerm fuel r
      .ok (v :: vs, r)

end

/-- Decode one opack value from a byte string, with provably sufficient
fuel. -/
def decodeBytes (bs : List Nat) : Except PyErr PyValue :=
  (decodeAux (2 * bs.length + 2) ⟨bs, 0, []⟩).map (·.1)

/-- IEEE-754 single→double widening at the bit level: what CPython's
struct.pack("<d", x) produces for a float x that came from
struct.unpack("<f", bits).  (NaN payloads are shifted like any other
mantissa; no claim exercises NaN floats.) -/
def f32ToF64bits (bits : List Nat) : List Nat :=
  let v := leToNat bits
  let s := v / 2 ^ 31 % 2
  let e := v / 2 ^ 23 % 256
  let m := v % 2 ^ 23
  let em : Nat × Nat :=
    if e = 255 then (2047, m * 2 ^ 29)
    else if e ≠ 0 then (e + 896, m * 2 ^ 29)
    else if m = 0 then (0, 0)
    else
      let k := Nat.log2 m
      (k + 874, (m - 2 ^ k) * 2 ^ (52 - k))
  natToLE 8 (s * 2 ^ 63 + em.1 * 2 ^ 52 + em.2)

/-- State of DatastreamWriter (datastream_parser.py lines 239-372): a
zero-padded growable bytearray plus a write index. -/
structure DatastreamWriter where
  data : List Nat
  index : Nat

/-- DatastreamWriter() constructor (lines 242-244): CHUNK_SIZE = 128
zero bytes, index 0. -/
def DatastreamWriter.init : DatastreamWriter :=
  ⟨List.replicate 128 0, 0⟩

/-- DatastreamWriter.get_bytes (lines 250-251). -/
def DatastreamWriter.get_bytes (w : DatastreamWriter) : List Nat :=
  w.data.take w.index

/-- DatastreamWriter._ensure (lines 253-257): grow by whole 128-byte
chunks when `length` more bytes would not fit. -/
def DatastreamWriter.ensure (w : DatastreamWriter) (length : Nat) : DatastreamWriter :=
  if w.index + length > w.data.length then
    let needed := w.index + length - w.data.length
    { w with data := w.data ++ List.replicate (128 * (needed / 128 + 1)) 0 }
  else w

/-- Python bytearray slice assignment
data[index : index + length] = payload: replaces the slice, resizing the
array when the payload length differs from `length`. -/
def DatastreamWriter.splice (w : DatastreamWriter) (length : Nat) (payload : List Nat) :
    DatastreamWriter :=
  { w with data := w.data.take w.index ++ payload ++ w.data.drop (w.index + length) }

/-- DatastreamWriter.write_tag (lines 259-262).  A bytearray item
assignment accepts only 0..255 (ValueError otherwise). -/
def DatastreamWriter.write_tag (w : DatastreamWriter) (tag : Nat) :
    Except PyErr DatastreamWriter := do
  let w := w.ensure 1
  if tag < 256 then .ok { w with data := w.data.set w.index tag, index := w.index + 1 }
  else .error .valueError

/-- DatastreamWriter.write_int (lines 288-295).  For size 1 this is a
bytearray item assignment (ValueError outside 0..255); otherwise
int.to_bytes(size, little), which raises OverflowError for a negative
value or one that does not fit (no signed flag is passed). -/
def DatastreamWriter.write_int (w : DatastreamWriter) (value : Int) (size : Nat) :
    Except PyErr DatastreamWriter := do
  let w := w.ensure size
  if size = 1 then
    if 0 ≤ value ∧ value < 256 then
      .ok { w with data := w.data.set w.index value.toNat, index := w.index + size }
    else .error .valueError
  else
    if 0 ≤ value ∧ value < (2 : Int) ^ (8 * size) then
      .ok { (w.splice size (natToLE size value.toNat)) with index := w.index + size }
    else .error .overflowError

/-- DatastreamWriter.write_number (lines 270-286).  Note the inline range
extends to 39, producing tag 0x2F for the value 39. -/
def DatastreamWriter.write_number (w : DatastreamWriter) (value : Int) :
    Except PyErr DatastreamWriter :=
  if value = -1 then w.write_tag 0x07
  else if 0 ≤ value ∧ value ≤ 39 then w.write_tag (0x08 + value.toNat)
  else if -128 ≤ value ∧ value ≤ 127 then do
    let w ← w.write_tag 0x30
    w.write_int value 1
  else if -32768 ≤ value ∧ value ≤ 32767 then do
    let w ← w.write_tag 0x31
    w.write_int value 2
  else if -2147483648 ≤ value ∧ value ≤ 2147483647 then do
    let w ← w.write_tag 0x32
    w.write_int value 4
  else do
    let w ← w.write_tag 0x33
    w.write_int value 8

/-- DatastreamWriter.write_float32 (lines 297-301): writes the tag and
then calls struct.pack("<f", value) on the Float32 wrapper object itself
(not value.value); the wrapper is not a float, so struct raises. -/
def DatastreamWriter.write_float32 (w : DatastreamWriter) (_payload : List Nat) :
    Except PyErr DatastreamWriter := do
  let _w ← w.write_tag 0x35
  .error .structError

/-- DatastreamWriter.write_float64 (lines 303-307): tag 0x36 then the 8
little-endian bytes of struct.pack("<d", value.value). -/
def DatastreamWriter.write_float64 (w : DatastreamWriter) (bits : List Nat) :
    Except PyErr DatastreamWriter := do
  let w ← w.write_tag 0x36
  let w := w.ensure 8
  .ok { (w.splice 8 bits) with index := w.index + 8 }

/-- DatastreamWriter.write_utf8 (lines 309-331).  `length` is
len(value) — the number of code points — while the bytes spliced in are
value.encode("utf-8"), which may be longer; the slice assignment then
grows the array and the index advances only by `length`. -/
def DatastreamWriter.write_utf8 (w : DatastreamWriter) (cps : List Nat) :
    Except PyErr DatastreamWriter := do
  let len := cps.length
  let (w, length) ←
    if len ≤ 32 then do
      let w ← w.write_tag (0x40 + len)
      pure (w, len)
    else if len ≤ 255 then do
      let w ← w.write_tag 0x61
      let w ← w.write_int len 1
      pure (w, len)
    else if len ≤ 65535 then do
      let w ← w.write_tag 0x62
      let w ← w.write_int len 2
      pure (w, len)
    else if len ≤ 4294967295 then do
      let w ← w.write_tag 0x63
      let w ← w.write_int len 4
      pure (w, len)
    else if len ≤ 18446744073709551615 then do
      let w ← w.write_tag 0x64
      let w ← w.write_int len 8
      pure (w, len)
    else do
      let w ← w.write_tag 0x6F
      pure (w, len + 1)
  let w := w.ensure length
  match utf8Enc cps with
  | some bs => .ok { (w.splice length bs) with index := w.index + length }
  | none => .error .unicodeEncodeError

/-- DatastreamWriter.write_data (lines 333-362). -/
def DatastreamWriter.write_data (w : DatastreamWriter) (value : List Nat) :
    Except PyErr DatastreamWriter := do
  let len := value.length
  let (w, length, term) ←
    if len ≤ 32 then do
      let w ← w.write_tag (0x70 + len)
      pure (w, len, false)
    else if len ≤ 255 then do
      let w ← w.write_tag 0x91
      let w ← w.write_int len 1
      pure (w, len, false)
    else if len ≤ 65535 then do
      let w ← w.write_tag 0x92
      let w ← w.write_int len 2
      pure (w, len, false)
    else if len ≤ 4294967295 then do
      let w ← w.write_tag 0x93
      let w ← w.write_int len 4
      pure (w, len, false)
    else if len ≤ 18446744073709551615 then do
      let w ← w.write_tag 0x94
      let w ← w.write_int len 8
      pure (w, len, false)
    else do
      let w ← w.write_tag 0x9F
      pure (w, len + 1, true)
  let w := w.ensure length
  let w := { (w.splice length value) with index := w.index + length }
  if term then
    .ok { w with data := w.data.set w.index 0x03, index := w.index + 1 }
  else .ok w

/-- DatastreamWriter.write_date (lines 364-366): writes tag 0x06 and
then write_float64, which writes its own 0x36 tag as well. -/
def DatastreamWriter.write_date (w : DatastreamWriter) (bits : List Nat) :
    Except PyErr DatastreamWriter := do
  let w ← w.write_tag 0x06
  w.write_float64 bits

/-- DatastreamWriter.write_uuid (lines 368-372): tag 0x05 then the 16
big-endian UUID bytes. -/
def DatastreamWriter.write_uuid (w : DatastreamWriter) (bs : List Nat) :
    Except PyErr DatastreamWriter := do
  let w ← w.write_tag 0x05
  let w := w.ensure 16
  .ok { (w.splice 16 bs) with index := w.index + 16 }

mutual

/-- DatastreamParser.encode (datastream_parser.py lines 473-539),
dispatching on the value type in the order of the isinstance chain.
Both kinds of Python float take the isinstance(value, float) branch and
go through write_float64(Float64(value)).  A tuple (as produced by the
decoder for floats) matches no branch and raises
ValueError("Unsupported type"). -/
def encodeVal : PyValue → DatastreamWriter → Except PyErr DatastreamWriter
  | .pynone, w => w.write_tag 0x04
  | .pybool true, w => w.write_tag 0x01
  | .pybool false, w => w.write_tag 0x02
  | .terminator, w => w.write_tag 0x03
  | .int n, w => w.write_number n
  | .float bits, w => w.write_float64 bits
  | .floatOfF32 bits, w => w.write_float64 (f32ToF64bits bits)
  | .int8w n, w => do
    let w ← w.write_tag 0x30
    w.write_int n 1
  | .int16w n, w => do
    let w ← w.write_tag 0x31
    w.write_int n 2
  | .int32w n, w => do
    let w ← w.write_tag 0x32
    w.write_int n 4
  | .int64w n, w => do
    let w ← w.write_tag 0x33
    w.write_int n 8
  | .float32w p, w => w.write_float32 p
  | .float64w bits, w => w.write_float64 bits
  | .seconds2001 bits, w => w.write_date bits
  | .str cps, w => w.write_utf8 cps
  | .bytes bs, w => w.write_data bs
  | .uuid bs, w => w.write_uuid bs
  | .tuple _, _ => .error .valueError
  | .array vs, w => do
    let length := vs.length
    let w ← if length ≤ 12 then w.write_tag (0xD0 + length) else w.write_tag 0xDF
    let w ← encodeListVals vs w
    if length > 12 then w.write_tag 0x03 else .ok w
  | .dict kvs, w => do
    let length := kvs.length
    let w ← if length ≤ 14 then w.write_tag (0xE0 + length) else w.write_tag 0xEF
    let w ← encodePairVals kvs w
    if length > 14 then w.write_tag 0x03 else .ok w

def encodeListVals : List PyValue → DatastreamWriter → Except PyErr DatastreamWriter
  | [], w => .ok w
  | v :: vs, w => do
    let w ← encodeVal v w
    encodeListVals vs w

def encodePairVals : List (PyValue × PyValue) → DatastreamWriter → Except PyErr DatastreamWriter
  | [], w => .ok w
  | (k, v) :: kvs, w => do
    let w ← encodeVal k w
    let w ← encodeVal v w
    encodePairVals kvs w

end

/-- Encode one opack value to bytes on a fresh writer. -/
def encodeBytes (v : PyValue) : Except PyErr (List Nat) :=
  (encodeVal v DatastreamWriter.init).map (·.get_bytes)

/-- HDSFrame (hds_types.py lines 20-25). -/
structure HDSFrame where
  header : List Nat
  ciphered_payload : List Nat
  auth_tag : List Nat
  plaintext_payload : Option (List Nat) := Option.none
  deriving DecidableEq, Repr

/-- State of HDSCrypto (hds_crypto.py lines 13-26).  The two derived
ChaCha20-Poly1305 cipher objects are abstracted as pure functions of
(nonce counter, associated data, ciphertext-plus-tag resp. plaintext);
the per-direction counters are explicit. -/
structure HDSCrypto where
  aead_open : Nat → List Nat → List Nat → Option (List Nat)
  aead_seal : Nat → List Nat → List Nat → List Nat
  in_nonce : Nat
  out_nonce : Nat

/-- HDSCrypto.decrypt (hds_crypto.py lines 28-40): returns True at once
when the frame already carries a plaintext; otherwise attempts an AEAD
open with the current inbound nonce, advancing the counter and filling
the frame only on success. -/
def HDSCrypto.decrypt (c : HDSCrypto) (f : HDSFrame) : Bool × HDSCrypto × HDSFrame :=
  if f.plaintext_payload.isSome then (true, c, f)
  else
    match c.aead_open c.in_nonce f.header (f.ciphered_payload ++ f.auth_tag) with
    | some p =>
      (true, { c with in_nonce := c.in_nonce + 1 }, { f with plaintext_payload := some p })
    | Option.none => (false, c, f)

/-- HDSCrypto.encrypt (hds_crypto.py lines 42-50): seal with the current
outbound nonce and advance it. -/
def HDSCrypto.encrypt (c : HDSCrypto) (f : HDSFrame) : HDSCrypto × HDSFrame :=
  ({ c with out_nonce := c.out_nonce + 1 },
   { f with ciphered_payload :=
      c.aead_seal c.out_nonce f.header (f.plaintext_payload.getD []) })

/-- DatastreamConnection.decode_frames (datastream_connection.py lines
344-381): split the buffer into frames.  A frame whose first header
byte is not 0x01 is dropped with a log message; no crypto object is
consulted anywhere in this function.  Returns the extracted frames and
the unconsumed remainder of the buffer.  Fuel-structural: every
iteration consumes at least 20 bytes. -/
def decode_frames_aux : Nat → List Nat → List HDSFrame × List Nat
  | 0, buf => ([], buf)
  | fuel + 1, buf =>
    if buf.length ≥ 16 then
      let header := buf.take 4
      let payload_tag := buf.headD 0
      let payload_length := beToNat ((buf.drop 1).take 3)
      let frame_length := 4 + payload_length + 16
      if buf.length < frame_length then ([], buf)
      else
        let ciphered := (buf.drop 4).take payload_length
        let auth := (buf.drop (4 + payload_length)).take 16
        let (frames, leftover) := decode_frames_aux fuel (buf.drop frame_length)
        if payload_tag = 1 then (⟨header, ciphered, auth, Option.none⟩ :: frames, leftover)
        else (frames, leftover)
    else ([], buf)

/-- decode_frames on a whole buffer, with provably sufficient fuel. -/
def decode_frames (buf : List Nat) : List HDSFrame × List Nat :=
  decode_frames_aux (buf.length + 1) buf

/-- The frame-decryption loop of DatastreamConnection.data_received
(lines 186-191): decrypt the frames in order, stopping at the first
failure (which closes the connection).  Returns the success flag, the
final crypto state, and the frames as mutated so far. -/
def decrypt_frames (c : HDSCrypto) : List HDSFrame → Bool × HDSCrypto × List HDSFrame
  | [] => (true, c, [])
  | f :: fs =>
    let (ok1, c1, f1) := c.decrypt f
    if ok1 then
      let (ok2, c2, fs2) := decrypt_frames c1 fs
      (ok2, c2, f1 :: fs2)
    else (false, c1, f1 :: fs)

/-- Count of positions at which a frame's plaintext went from unset to
set between two frame lists. -/
def newly_opened : List HDSFrame → List HDSFrame → Nat
  | b :: bs, a :: rest =>
    (if b.plaintext_payload.isNone ∧ a.plaintext_payload.isSome then 1 else 0)
      + newly_opened bs rest
  | _, _ => 0

/-- Sealing a sequence of outbound frames (encode_frame, called once per
send_frame; datastream_connection.py lines 383-393). -/
def encrypt_frames (c : HDSCrypto) : List HDSFrame → HDSCrypto × List HDSFrame
  | [] => (c, [])
  | f :: fs =>
    let (c1, f1) := c.encrypt f
    let (c2, fs2) := encrypt_frames c1 fs
    (c2, f1 :: fs2)

/-- DatastreamSession (datastream_connection.py lines 68-81): the crypto
state plus the 10-second connect-timeout timer handle
(connection_task), which becomes None once cancelled. -/
structure DatastreamSession where
  crypto : HDSCrypto
  connection_task : Option Unit := some ()

/-- DatastreamServer.identify_session (datastream_server.py lines
125-143): try each prepared session's decrypt on the frame, in list
order.  The first session that succeeds is removed from the list, has
its connect timer cancelled and cleared, and is returned together with
the now-opened frame.  Sessions that fail are kept with whatever decrypt
left behind (which is: nothing changed). -/
def identify_session (f : HDSFrame) :
    List DatastreamSession → Option DatastreamSession × List DatastreamSession × HDSFrame
  | [] => (Option.none, [], f)
  | s :: rest =>
    let (ok1, c1, f1) := s.crypto.decrypt f
    if ok1 then
      (some { s with crypto := c1, connection_task := Option.none }, rest, f1)
    else
      let (res, rest1, f2) := identify_session f1 rest
      (res, { s with crypto := c1 } :: rest1, f2)

/-- ConnectionState (datastream_connection.py lines 60-65). -/
inductive ConnectionState where
  | unidentified
  | expecting_hello
  | ready
  | closing
  | closed
  deriving DecidableEq, Repr

/-- The connection state touched by the framing/decryption stage of
data_received: protocol state, bound session, receive buffer. -/
structure ConnModel where
  state : ConnectionState
  session : Option DatastreamSession
  buffer : List Nat

/-- The tail of data_received after identification (lines 185-191):
decrypt every extracted frame with the bound session's crypto, closing
the connection on the first failure.  self._session being None here
would be an AttributeError in Python. -/
def decrypt_stage (sessions : List DatastreamSession) (conn : ConnModel)
    (frames : List HDSFrame) :
    Except PyErr (List DatastreamSession × ConnModel × List HDSFrame) :=
  match conn.session with
  | Option.none => .error .attributeError
  | some s =>
    let (ok1, c1, frames1) := decrypt_frames s.crypto frames
    let conn := { conn with session := some { s with crypto := c1 } }
    if ok1 then .ok (sessions, conn, frames1)
    else .ok (sessions, { conn with state := .closing }, [])

/-- The framing / identification / decryption stage of
DatastreamConnection.data_received (datastream_connection.py lines
156-191): append the bytes to the receive buffer, split off complete
frames, identify the session if the connection is still unidentified
(closing it when no prepared session matches), then decrypt all frames.
The later payload-decoding and dispatch steps (lines 192-210) are
outside the claims settled here.  Returns the prepared-session list,
the connection, and the decrypted frames (empty on an early return). -/
def data_received_frames (sessions : List DatastreamSession) (conn : ConnModel)
    (data : List Nat) :
    Except PyErr (List DatastreamSession × ConnModel × List HDSFrame) :=
  let (frames, buf1) := decode_frames (conn.buffer ++ data)
  let conn := { conn with buffer := buf1 }
  match frames with
  | [] => .ok (sessions, conn, [])
  | f0 :: rest =>
    if conn.state = .unidentified then
      match identify_session f0 sessions with
      | (Option.none, sessions1, _) =>
        .ok (sessions1, { conn with state := .closing }, [])
      | (some s, sessions1, f1) =>
        decrypt_stage sessions1
          { conn with session := some s, state := .expecting_hello } (f1 :: rest)
    else
      decrypt_stage sessions conn (f0 :: rest)

/-- The attribute namespace of a DatastreamConnection object: the class
attributes and methods (datastream_connection.py lines 84-494) plus the
instance attributes assigned in __init__ (lines 94-114).  There is no
attribute named request_handlers. -/
def datastream_connection_attrs : List String :=
  ["HEADER_LENGTH", "AUTH_TAG_LENGTH", "MAX_PAYLOAD_LENGTH",
   "_handle_hello", "_hello_timeout", "connection_made", "close",
   "connection_lost", "eof_received", "data_received", "process_message",
   "send_event", "send_request", "_request_timeout", "send_response",
   "send_frame", "decode_frames", "encode_frame", "decode_payload",
   "encode_payload", "add_protocol_handler", "remove_protocol_handler",
   "add_close_handler",
   "_server", "_session", "_state", "_transport", "_buffer", "peername",
   "close_handlers", "protocol_handlers", "_response_handlers",
   "_message_callback", "_loop", "_hello_timer"]

/-- The rejection-sampling loop that lines 289-293 attempt: draw ids
until one is free.  (Fuel-bounded; unreachable in practice, see
send_request.) -/
def alloc_request_id : Nat → (Nat → Nat) → List Nat → Nat → Except PyErr Nat
  | 0, _, _, _ => .error .fuelExhausted
  | fuel + 1, rand, keys, i =>
    if rand i ∉ keys then .ok (rand i) else alloc_request_id fuel rand keys (i + 1)

/-- DatastreamConnection.send_request (datastream_connection.py lines
285-306).  Advancing the generator evaluates
`x not in self.request_handlers` (line 292), an attribute lookup on the
object's namespace; the attribute does not exist, so Python raises
AttributeError before anything is registered or sent.  The then-branch
models the loop as written, registering the allocated id in
_response_handlers (line 296), were the attribute ever to exist.
`rand` is the stream of random.randint(1, 2**32) draws and
`response_handlers` the current waiter-table keys. -/
def send_request (fuel : Nat) (rand : Nat → Nat) (response_handlers : List Nat) :
    Except PyErr (Nat × List Nat) :=
  if "request_handlers" ∈ datastream_connection_attrs then
    match alloc_request_id fuel rand response_handlers 0 with
    | .ok i => .ok (i, response_handlers ++ [i])
    | .error e => .error e
  else .error .attributeError

/-- HDSStatus wire values (hds_types.py lines 28-35). -/
def HDSStatus.SUCCESS : Nat := 0

def HDSStatus.TIMEOUT : Nat := 2

def HDSStatus.PROTOCOL_SPECIFIC_ERROR : Nat := 6

/-- HDSProtocolSpecificErrorReason values (hds_types.py lines 38-48). -/
def HDSReason.NORMAL : Nat := 0

def HDSReason.NOT_ALLOWED : Nat := 1

def HDSReason.BUSY : Nat := 2

def HDSReason.UNEXPECTED_FAILURE : Nat := 5

def HDSReason.INVALID_CONFIGURATION : Nat := 9

/-- HomeKitCameraActive characteristic values
(recording_management.py lines 112-114). -/
def HomeKitCameraActive.OFF : Nat := 0

/-- The dataSend.open request fields read by _handle_data_send
(recording_management.py lines 206-209); dict.get yields None for a
missing key. -/
structure DataSendOpenRequest where
  target : Option String
  stream_type : Option String

/-- The accessory state consulted by _handle_data_send, in the order the
checks read it. -/
structure RecordingState where
  recording_active : Bool
  camera_active_value : Nat
  recording_stream : Bool
  selected_config : Option String

/-- Python truthiness of an optional string (None and "" are falsy). -/
def pyTruthyStr : Option String → Bool
  | Option.none => false
  | some s => s ≠ ""

/-- The observable outcome of a dataSend.open request: the HDSStatus of
the response, the numeric value stored under "status" in the response
body (enums are unwrapped to their values by DatastreamParser.encode,
line 474-475), and whether a RecordingStream was started. -/
structure DataSendOpenResponse where
  status : Nat
  body_status : Nat
  starts_stream : Bool
  deriving DecidableEq, Repr

/-- RecordingManagement._handle_data_send (recording_management.py lines
202-287) composed with the SUCCESS response that
RecordingStream._async_start sends first thing
(recording_stream.py lines 60-72). -/
def handle_data_send (req : DataSendOpenRequest) (st : RecordingState) :
    DataSendOpenResponse :=
  if req.target ≠ some "controller" ∨ req.stream_type ≠ some "ipcamera.recording" then
    ⟨HDSStatus.PROTOCOL_SPECIFIC_ERROR, HDSReason.UNEXPECTED_FAILURE, false⟩
  else if ¬ st.recording_active then
    ⟨HDSStatus.PROTOCOL_SPECIFIC_ERROR, HDSReason.NOT_ALLOWED, false⟩
  else if st.camera_active_value = HomeKitCameraActive.OFF then
    ⟨HDSStatus.PROTOCOL_SPECIFIC_ERROR, HDSReason.NOT_ALLOWED, false⟩
  else if st.recording_stream then
    ⟨HDSStatus.PROTOCOL_SPECIFIC_ERROR, HDSReason.BUSY, false⟩
  else if ¬ pyTruthyStr st.selected_config then
    ⟨HDSStatus.PROTOCOL_SPECIFIC_ERROR, HDSReason.INVALID_CONFIGURATION, false⟩
  else
    ⟨HDSStatus.SUCCESS, HDSStatus.SUCCESS, true⟩

/-- RecordingPacket (recording_stream.py lines 19-22). -/
structure RecordingPacket where
  data : List Nat
  last : Bool

/-- The metadata dictionary of a dataSend.data event
(recording_stream.py lines 93-103). -/
structure PacketMetadata where
  dataType : String
  dataSequenceNumber : Nat
  dataChunkSequenceNumber : Nat
  isLastDataChunk : Bool
  dataTotalSize : Option Nat
  deriving DecidableEq, Repr

/-- One dataSend.data event (recording_stream.py lines 104-113): the
stream id, the single packet entry's chunk bytes and metadata, and the
top-level endOfStream field. -/
structure DataSendEvent where
  streamId : Int
  chunk : List Nat
  metadata : PacketMetadata
  endOfStream : Option Bool
  deriving DecidableEq, Repr

/-- The inner while-loop of RecordingStream._async_start
(recording_stream.py lines 89-131): cut the fragment into chunks of at
most 0x40000 bytes from `offset` on, emitting one event per chunk.
`initializing` is set to False after every chunk (line 130).  Returns
the events and the final value of `initializing`.  Fuel-structural:
each iteration advances `offset` by at least one byte. -/
def chunk_loop (stream_id : Int) (pkt_last : Bool) (fragment : List Nat)
    (data_sequence : Nat) :
    Nat → Nat → Nat → Bool → List DataSendEvent × Bool
  | 0, _, _, initializing => ([], initializing)
  | fuel + 1, offset, data_chunk_sequence, initializing =>
    if offset < fragment.length then
      let data := (fragment.drop offset).take 0x40000
      let offset1 := offset + data.length
      let md : PacketMetadata :=
        ⟨if initializing then "mediaInitialization" else "mediaFragment",
         data_sequence, data_chunk_sequence,
         decide (offset1 ≥ fragment.length),
         if data_chunk_sequence = 1 then some fragment.length else Option.none⟩
      let ev : DataSendEvent :=
        ⟨stream_id, data, md,
         if offset1 ≥ fragment.length then some pkt_last else Option.none⟩
      let (evs, ini) :=
        chunk_loop stream_id pkt_last fragment data_sequence fuel offset1
          (data_chunk_sequence + 1) false
      (ev :: evs, ini)
    else ([], initializing)

/-- The async-for over delegate packets of RecordingStream._async_start
(recording_stream.py lines 74-138): after a packet with last=True the
loop breaks, so later packets are ignored; otherwise the data sequence
number advances per packet and `initializing` is threaded through. -/
def packets_loop (stream_id : Int) :
    List RecordingPacket → Nat → Bool → Bool → List DataSendEvent
  | [], _, _, _ => []
  | p :: ps, data_sequence, initializing, marked_last =>
    if marked_last then []
    else
      let (evs, ini) :=
        chunk_loop stream_id p.last p.data data_sequence (p.data.length + 1) 0 1
          initializing
      if p.last then evs
      else evs ++ packets_loop stream_id ps (data_sequence + 1) ini p.last

/-- All dataSend.data events RecordingStream._async_start emits for a
delegate packet sequence (initial state: data_sequence 1, initializing
True, marked_last False; lines 74-77). -/
def stream_events (stream_id : Int) (packets : List RecordingPacket) :
    List DataSendEvent :=
  packets_loop stream_id packets 1 true false

/-- Specification side (amended claim C8): cut a byte string into
consecutive chunks of at most 0x40000 bytes. -/
def chunks_of (l : List Nat) : List (List Nat) :=
  if h : l.isEmpty then [] else l.take 0x40000 :: chunks_of (l.drop 0x40000)
termination_by l.length
decreasing_by
  simp only [List.isEmpty_iff] at h
  have hl : 0 < l.length := List.length_pos.mpr h
  simp only [List.length_drop]
  omega

/-- Specification side (amended claim C8): label the chunks of one
packet.  Chunk numbers are 1-based from `cnum`; isLastDataChunk marks
the final chunk; dataTotalSize appears on chunk number 1 only; the
packet's last flag is placed in endOfStream of the final chunk and null
elsewhere; dataType is mediaInitialization exactly on the first chunk
event of the entire stream (tracked by `first_ev`). -/
def label_chunks (stream_id : Int) (pkt_last : Bool) (total seq : Nat) :
    List (List Nat) → Nat → Bool → List DataSendEvent
  | [], _, _ => []
  | c :: cs, cnum, first_ev =>
    ⟨stream_id, c,
     ⟨if first_ev then "mediaInitialization" else "mediaFragment", seq, cnum,
      decide (cs = []), if cnum = 1 then some total else Option.none⟩,
     if cs = [] then some pkt_last else Option.none⟩
      :: label_chunks stream_id pkt_last total seq cs (cnum + 1) false

/-- Specification side (amended claim C8): the events of the packet with
1-based sequence number `seq`. -/
def spec_packet_events (stream_id : Int) (seq : Nat) (first_ev : Bool)
    (p : RecordingPacket) : List DataSendEvent :=
  label_chunks stream_id p.last p.data.length seq (chunks_of p.data) 1 first_ev

/-- Specification side (amended claim C8): packets are numbered from
`seq`; the stream ends with the first packet whose last flag is set;
`first_ev` stays set until some event has been emitted. -/
def spec_stream_events_aux (stream_id : Int) :
    List RecordingPacket → Nat → Bool → List DataSendEvent
  | [], _, _ => []
  | p :: ps, seq, first_ev =>
    let evs := spec_packet_events stream_id seq first_ev p
    if p.last then evs
    else evs ++ spec_stream_events_aux stream_id ps (seq + 1) (first_ev && p.data.isEmpty)

/-- Specification side (amended claim C8): the full event sequence. -/
def spec_stream_events (stream_id : Int) (packets : List RecordingPacket) :
    List DataSendEvent :=
  spec_stream_events_aux stream_id packets 1 true

/-- SessionCommandType (datastream_management.py lines 34-35).  The
Python Enum call SessionCommandType(v) raises ValueError for every value
other than b"\x00" — including None when the TLV field is absent. -/
inductive SessionCommandType where
  | START_SESSION
  deriving DecidableEq, Repr

def SessionCommandType.ofValue : Option (List Nat) → Except PyErr SessionCommandType
  | some bs => if bs = [0x00] then .ok .START_SESSION else .error .valueError
  | Option.none => .error .valueError

/-- TransportType (datastream_management.py lines 38-39), with the same
Enum-construction behavior. -/
inductive TransportType where
  | HOMEKIT_DATA_STREAM
  deriving DecidableEq, Repr

def TransportType.ofValue : Option (List Nat) → Except PyErr TransportType
  | some bs => if bs = [0x00] then .ok .HOMEKIT_DATA_STREAM else .error .valueError
  | Option.none => .error .valueError

/-- The observable outcome of the SetupDataStreamTransport write
handler: either the HAP status InvalidValueInRequest, or the success
TLV carrying status 0x00, the listening port and the accessory salt. -/
inductive SetupResult where
  | invalid_value_in_request
  | success (tcp_listening_port : Nat) (accessory_key_salt : List Nat)
  deriving DecidableEq, Repr

/-- DatastreamManagement._set_setup_data_stream_transport
(datastream_management.py lines 91-136), over the decoded request TLV
fields (the TLV8 codec itself is an external collaborator).  `port` and
`accessory_key_salt` stand for what server.prepare_session returns.
Note both enum conversions happen before the validity check on lines
109-114, so that check can never be true. -/
def set_setup_data_stream_transport
    (session_command transport_type _controller_key_salt : Option (List Nat))
    (port : Nat) (accessory_key_salt : List Nat) : Except PyErr SetupResult := do
  let scmd ← SessionCommandType.ofValue session_command
  let ttype ← TransportType.ofValue transport_type
  if scmd ≠ SessionCommandType.START_SESSION ∨ ttype ≠ TransportType.HOMEKIT_DATA_STREAM
  then
    .ok .invalid_value_in_request
  else
    .ok (.success port accessory_key_salt)

/-- The tag bytes assigned to no case of the decoder's match statement
(claim C2 names 0x2F, 0x34, 0x37..0x3F, 0x65..0x6E, 0x95..0x9E). -/
def unassigned_tags : List Nat :=
  [0x2F, 0x34,
   0x37, 0x38, 0x39, 0x3A, 0x3B, 0x3C, 0x3D, 0x3E, 0x3F,
   0x65, 0x66, 0x67, 0x68, 0x69, 0x6A, 0x6B, 0x6C, 0x6D, 0x6E,
   0x95, 0x96, 0x97, 0x98, 0x99, 0x9A, 0x9B, 0x9C, 0x9D, 0x9E]

/-! ## General-purpose lemmas -/

theorem head_take_pos {α : Type} (l : List α) (n : Nat) (h : 0 < n) :
    (l.take n).head? = l.head? := by
  cases l with
  | nil => simp
  | cons a l =>
    cases n with
    | zero => omega
    | succ n => simp

theorem head_append_left {α : Type} (l l2 : List α) (h : l ≠ []) :
    (l ++ l2).head? = l.head? := by
  cases l with
  | nil => exact absurd rfl h
  | cons a l => simp

theorem head_set_zero {α : Type} (l : List α) (v : α) (h : l ≠ []) :
    (l.set 0 v).head? = some v := by
  cases l with
  | nil => exact absurd rfl h
  | cons a l => simp

theorem head_set_pos {α : Type} (l : List α) (n : Nat) (v : α) (h : 1 ≤ n) :
    (l.set n v).head? = l.head? := by
  cases l with
  | nil => simp
  | cons a l =>
    cases n with
    | zero => omega
    | succ n => simp

theorem natToLE_length (size v : Nat) : (natToLE size v).length = size := by
  induction size generalizing v with
  | zero => rfl
  | succ n ih => simp [natToLE, ih]

theorem except_ok_bind {e a b : Type} (x : a) (f : a → Except e b) :
    (Except.ok x : Except e a) >>= f = f x := rfl

theorem except_pure_eq {e a : Type} (x : a) :
    (pure x : Except e a) = Except.ok x := rfl

/-! ## Writer lemmas: which tag byte an encode emits first -/

theorem ensure_head (w : DatastreamWriter) (n t : Nat) (h : w.data.head? = some t) :
    (w.ensure n).data.head? = some t ∧ (w.ensure n).index = w.index := by
  unfold DatastreamWriter.ensure
  split
  · refine ⟨?_, rfl⟩
    rw [head_append_left _ _ ?_, h]
    intro heq
    rw [heq] at h
    simp at h
  · exact ⟨h, rfl⟩

theorem splice_head (w : DatastreamWriter) (len : Nat) (payload : List Nat) (t : Nat)
    (h : w.data.head? = some t) (hi : 1 ≤ w.index) :
    (w.splice len payload).data.head? = some t := by
  cases hd : w.data with
  | nil => rw [hd] at h; simp at h
  | cons a l =>
    rw [hd] at h
    simp only [List.head?_cons, Option.some.injEq] at h
    obtain ⟨i, hi2⟩ : ∃ i, w.index = i + 1 := ⟨w.index - 1, by omega⟩
    simp [DatastreamWriter.splice, hd, hi2, h]

theorem write_int_ok_head (w : DatastreamWriter) (v : Int) (size : Nat) (t : Nat)
    (h : w.data.head? = some t) (hi : 1 ≤ w.index)
    (hv0 : 0 ≤ v) (hv : v < (2:Int) ^ (8 * size)) :
    ∃ w2, w.write_int v size = .ok w2 ∧ w2.data.head? = some t ∧
      w2.index = w.index + size := by
  obtain ⟨he1, he2⟩ := ensure_head w size t h
  unfold DatastreamWriter.write_int
  by_cases hs : size = 1
  · subst hs
    have hv256 : v < 256 := by norm_num at hv; exact hv
    refine ⟨⟨(w.ensure 1).data.set (w.ensure 1).index v.toNat, (w.ensure 1).index + 1⟩,
      ?_, ?_, ?_⟩
    · simp [bind, Except.bind, hv0, hv256]
    · rw [head_set_pos _ _ _ (by omega)]
      exact he1
    · simp [he2]
  · refine ⟨⟨((w.ensure size).splice size (natToLE size v.toNat)).data,
      (w.ensure size).index + size⟩, ?_, ?_, ?_⟩
    · simp [bind, Except.bind, hs, hv0, hv]
    · exact splice_head _ _ _ _ he1 (by omega)
    · simp [he2]

theorem write_tag_init (t : Nat) (ht : t < 256) :
    DatastreamWriter.init.write_tag t =
      .ok ⟨(List.replicate 128 0).set 0 t, 1⟩ := by
  simp [DatastreamWriter.write_tag, DatastreamWriter.init, DatastreamWriter.ensure,
    ht, bind, Except.bind]

theorem init_tag_head (t : Nat) : ((List.replicate 128 (0:Nat)).set 0 t).head? = some t :=
  head_set_zero _ _ (by simp)

theorem write_utf8_head_A (cps bs : List Nat) (henc : utf8Enc cps = some bs)
    (h32 : cps.length ≤ 32) :
    ∃ w2, DatastreamWriter.init.write_utf8 cps = .ok w2 ∧ 1 ≤ w2.index ∧
      w2.data.head? = some (0x40 + cps.length) := by
  unfold DatastreamWriter.write_utf8
  rw [if_pos h32, write_tag_init _ (by omega), except_ok_bind]
  simp only [except_pure_eq, except_ok_bind, henc]
  obtain ⟨hh, hix⟩ := ensure_head ⟨(List.replicate 128 0).set 0 (0x40 + cps.length), 1⟩
    cps.length _ (init_tag_head _)
  refine ⟨_, rfl, ?_, ?_⟩
  · simp only [hix]; omega
  · exact splice_head _ _ _ _ hh (by rw [hix])

theorem write_utf8_head_B (cps bs : List Nat) (henc : utf8Enc cps = some bs)
    (h32 : ¬ cps.length ≤ 32) (h255 : cps.length ≤ 255) :
    ∃ w2, DatastreamWriter.init.write_utf8 cps = .ok w2 ∧ 1 ≤ w2.index ∧
      w2.data.head? = some 0x61 := by
  unfold DatastreamWriter.write_utf8
  rw [if_neg h32, if_pos h255, write_tag_init 0x61 (by norm_num), except_ok_bind]
  simp only []
  have hv : (cps.length : Int) < (2:Int) ^ (8 * 1) := by norm_num; omega
  obtain ⟨w2, hw2, hh2, hi2⟩ := write_int_ok_head
    ⟨(List.replicate 128 0).set 0 0x61, 1⟩ cps.length 1 0x61 (init_tag_head _)
    (by norm_num) (by omega) hv
  rw [hw2, except_ok_bind]
  simp only [except_pure_eq, except_ok_bind, henc]
  obtain ⟨hh3, hi3⟩ := ensure_head w2 cps.length _ hh2
  refine ⟨_, rfl, ?_, ?_⟩
  · simp only [hi3]; omega
  · exact splice_head _ _ _ _ hh3 (by rw [hi3]; omega)

theorem write_utf8_head_C (cps bs : List Nat) (henc : utf8Enc cps = some bs)
    (h32 : ¬ cps.length ≤ 32) (h255 : ¬ cps.length ≤ 255)
    (h65535 : cps.length ≤ 65535) :
    ∃ w2, DatastreamWriter.init.write_utf8 cps = .ok w2 ∧ 1 ≤ w2.index ∧
      w2.data.head? = some 0x62 := by
  unfold DatastreamWriter.write_utf8
  rw [if_neg h32, if_neg h255, if_pos h65535, write_tag_init 0x62 (by norm_num),
    except_ok_bind]
  simp only []
  have hv : (cps.length : Int) < (2:Int) ^ (8 * 2) := by norm_num; omega
  obtain ⟨w2, hw2, hh2, hi2⟩ := write_int_ok_head
    ⟨(List.replicate 128 0).set 0 0x62, 1⟩ cps.length 2 0x62 (init_tag_head _)
    (by norm_num) (by omega) hv
  rw [hw2, except_ok_bind]
  simp only [except_pure_eq, except_ok_bind, henc]
  obtain ⟨hh3, hi3⟩ := ensure_head w2 cps.length _ hh2
  refine ⟨_, rfl, ?_, ?_⟩
  · simp only [hi3]; omega
  · exact splice_head _ _ _ _ hh3 (by rw [hi3]; omega)

theorem write_utf8_head_D (cps bs : List Nat) (henc : utf8Enc cps = some bs)
    (h32 : ¬ cps.length ≤ 32) (h255 : ¬ cps.length ≤ 255)
    (h65535 : ¬ cps.length ≤ 65535) (h4g : cps.length ≤ 4294967295) :
    ∃ w2, DatastreamWriter.init.write_utf8 cps = .ok w2 ∧ 1 ≤ w2.index ∧
      w2.data.head? = some 0x63 := by
  unfold DatastreamWriter.write_utf8
  rw [if_neg h32, if_neg h255, if_neg h65535, if_pos h4g,
    write_tag_init 0x63 (by norm_num), except_ok_bind]
  simp only []
  have hv : (cps.length : Int) < (2:Int) ^ (8 * 4) := by norm_num; omega
  obtain ⟨w2, hw2, hh2, hi2⟩ := write_int_ok_head
    ⟨(List.replicate 128 0).set 0 0x63, 1⟩ cps.length 4 0x63 (init_tag_head _)
    (by norm_num) (by omega) hv
  rw [hw2, except_ok_bind]
  simp only [except_pure_eq, except_ok_bind, henc]
  obtain ⟨hh3, hi3⟩ := ensure_head w2 cps.length _ hh2
  refine ⟨_, rfl, ?_, ?_⟩
  · simp only [hi3]; omega
  · exact splice_head _ _ _ _ hh3 (by rw [hi3]; omega)

theorem write_utf8_head_E (cps bs : List Nat) (henc : utf8Enc cps = some bs)
    (h32 : ¬ cps.length ≤ 32) (h255 : ¬ cps.length ≤ 255)
    (h65535 : ¬ cps.length ≤ 65535) (h4g : ¬ cps.length ≤ 4294967295)
    (hlen : cps.length ≤ 18446744073709551615) :
    ∃ w2, DatastreamWriter.init.write_utf8 cps = .ok w2 ∧ 1 ≤ w2.index ∧
      w2.data.head? = some 0x64 := by
  unfold DatastreamWriter.write_utf8
  rw [if_neg h32, if_neg h255, if_neg h65535, if_neg h4g, if_pos hlen,
    write_tag_init 0x64 (by norm_num), except_ok_bind]
  simp only []
  have hv : (cps.length : Int) < (2:Int) ^ (8 * 8) := by norm_num; omega
  obtain ⟨w2, hw2, hh2, hi2⟩ := write_int_ok_head
    ⟨(List.replicate 128 0).set 0 0x64, 1⟩ cps.length 8 0x64 (init_tag_head _)
    (by norm_num) (by omega) hv
  rw [hw2, except_ok_bind]
  simp only [except_pure_eq, except_ok_bind, henc]
  obtain ⟨hh3, hi3⟩ := ensure_head w2 cps.length _ hh2
  refine ⟨_, rfl, ?_, ?_⟩
  · simp only [hi3]; omega
  · exact splice_head _ _ _ _ hh3 (by rw [hi3]; omega)

theorem write_utf8_head_byte (cps bs : List Nat) (henc : utf8Enc cps = some bs)
    (hlen : cps.length ≤ 18446744073709551615) :
    ∃ w2, DatastreamWriter.init.write_utf8 cps = .ok w2 ∧ 1 ≤ w2.index ∧
      w2.data.head? = some (
        if cps.length ≤ 32 then 0x40 + cps.length
        else if cps.length ≤ 255 then 0x61
        else if cps.length ≤ 65535 then 0x62
        else if cps.length ≤ 4294967295 then 0x63
        else 0x64) := by
  by_cases h32 : cps.length ≤ 32
  · obtain ⟨w2, h1, h2, h3⟩ := write_utf8_head_A cps bs henc h32
    exact ⟨w2, h1, h2, by rw [if_pos h32]; exact h3⟩
  · by_cases h255 : cps.length ≤ 255
    · obtain ⟨w2, h1, h2, h3⟩ := write_utf8_head_B cps bs henc h32 h255
      exact ⟨w2, h1, h2, by rw [if_neg h32, if_pos h255]; exact h3⟩
    · by_cases h65535 : cps.length ≤ 65535
      · obtain ⟨w2, h1, h2, h3⟩ := write_utf8_head_C cps bs henc h32 h255 h65535
        exact ⟨w2, h1, h2, by rw [if_neg h32, if_neg h255, if_pos h65535]; exact h3⟩
      · by_cases h4g : cps.length ≤ 4294967295
        · obtain ⟨w2, h1, h2, h3⟩ := write_utf8_head_D cps bs henc h32 h255 h65535 h4g
          exact ⟨w2, h1, h2,
            by rw [if_neg h32, if_neg h255, if_neg h65535, if_pos h4g]; exact h3⟩
        · obtain ⟨w2, h1, h2, h3⟩ := write_utf8_head_E cps bs henc h32 h255 h65535 h4g hlen
          exact ⟨w2, h1, h2,
            by rw [if_neg h32, if_neg h255, if_neg h65535, if_neg h4g]; exact h3⟩

/-- The first byte write_utf8 emits, as a function of the string length,
for any encodable string: the inline tag for 32 or fewer code points,
otherwise the smallest length-prefix tag that fits. -/
theorem encode_str_tag_byte (cps bs : List Nat) (henc : utf8Enc cps = some bs)
    (hlen : cps.length ≤ 18446744073709551615) :
    (encodeBytes (.str cps)).map List.head? = .ok (some (
      if cps.length ≤ 32 then 0x40 + cps.length
      else if cps.length ≤ 255 then 0x61
      else if cps.length ≤ 65535 then 0x62
      else if cps.length ≤ 4294967295 then 0x63
      else 0x64)) := by
  obtain ⟨w2, hw2, hi2, hh2⟩ := write_utf8_head_byte cps bs henc hlen
  simp only [encodeBytes, encodeVal, hw2, Except.map, DatastreamWriter.get_bytes]
  rw [head_take_pos _ _ (by omega), hh2]

theorem utf8Enc_replicate_a (n : Nat) :
    utf8Enc (List.replicate n 97) = some (List.replicate n 97) := by
  induction n with
  | zero => rfl
  | succ n ih => simp [List.replicate_succ, utf8Enc, ih]

theorem decode_int16_truncated (bs : List Nat) (h : bs.length < 2) :
    decodeBytes (0x31 :: bs) = .error .valueError := by
  have hf : 2 * (0x31 :: bs).length + 2 = (2 * bs.length + 3) + 1 := by
    simp [List.length_cons]; omega
  have hgt : bs.length + 1 < 3 := by omega
  simp only [decodeBytes]
  rw [hf]
  simp [decodeAux, DatastreamReader.read_tag, DatastreamReader.ensure,
    DatastreamReader.read_slice, hgt, bind, Except.bind, Except.map]

theorem decode_int32_truncated (bs : List Nat) (h : bs.length < 4) :
    decodeBytes (0x32 :: bs) = .error .valueError := by
  have hf : 2 * (0x32 :: bs).length + 2 = (2 * bs.length + 3) + 1 := by
    simp [List.length_cons]; omega
  have hgt : bs.length + 1 < 5 := by omega
  simp only [decodeBytes]
  rw [hf]
  simp [decodeAux, DatastreamReader.read_tag, DatastreamReader.ensure,
    DatastreamReader.read_slice, hgt, bind, Except.bind, Except.map]

theorem decode_int64_truncated (bs : List Nat) (h : bs.length < 8) :
    decodeBytes (0x33 :: bs) = .error .valueError := by
  have hf : 2 * (0x33 :: bs).length + 2 = (2 * bs.length + 3) + 1 := by
    simp [List.length_cons]; omega
  have hgt : bs.length + 1 < 9 := by omega
  simp only [decodeBytes]
  rw [hf]
  simp [decodeAux, DatastreamReader.read_tag, DatastreamReader.ensure,
    DatastreamReader.read_slice, hgt, bind, Except.bind, Except.map]

theorem decode_uuid_truncated (bs : List Nat) (h : bs.length < 16) :
    decodeBytes (0x05 :: bs) = .error .valueError := by
  have hf : 2 * (0x05 :: bs).length + 2 = (2 * bs.length + 3) + 1 := by
    simp [List.length_cons]; omega
  have hgt : bs.length + 1 < 17 := by omega
  simp only [decodeBytes]
  rw [hf]
  simp [decodeAux, DatastreamReader.read_tag, DatastreamReader.ensure,
    DatastreamReader.read_slice, hgt, bind, Except.bind, Except.map]

theorem decode_date_truncated (bs : List Nat) (h : bs.length < 8) :
    decodeBytes (0x06 :: bs) = .error .valueError := by
  have hf : 2 * (0x06 :: bs).length + 2 = (2 * bs.length + 3) + 1 := by
    simp [List.length_cons]; omega
  have hgt : bs.length + 1 < 9 := by omega
  simp only [decodeBytes]
  rw [hf]
  simp [decodeAux, DatastreamReader.read_tag, DatastreamReader.ensure,
    DatastreamReader.read_slice, hgt, bind, Except.bind, Except.map]

theorem decode_float32_truncated (bs : List Nat) (h : bs.length < 4) :
    decodeBytes (0x35 :: bs) = .error .valueError := by
  have hf : 2 * (0x35 :: bs).length + 2 = (2 * bs.length + 3) + 1 := by
    simp [List.length_cons]; omega
  have hgt : bs.length + 1 < 5 := by omega
  simp only [decodeBytes]
  rw [hf]
  simp [decodeAux, DatastreamReader.read_tag, DatastreamReader.ensure,
    DatastreamReader.read_slice, hgt, bind, Except.bind, Except.map]

theorem decode_float64_truncated (bs : List Nat) (h : bs.length < 8) :
    decodeBytes (0x36 :: bs) = .error .valueError := by
  have hf : 2 * (0x36 :: bs).length + 2 = (2 * bs.length + 3) + 1 := by
    simp [List.length_cons]; omega
  have hgt : bs.length + 1 < 9 := by omega
  simp only [decodeBytes]
  rw [hf]
  simp [decodeAux, DatastreamReader.read_tag, DatastreamReader.ensure,
    DatastreamReader.read_slice, hgt, bind, Except.bind, Except.map]

theorem decode_inline_str_truncated (n : Nat) (bs : List Nat) (hn : n ≤ 32)
    (h : bs.length < n) : decodeBytes ((0x40 + n) :: bs) = .error .valueError := by
  have hf : 2 * ((0x40 + n) :: bs).length + 2 = (2 * bs.length + 3) + 1 := by
    simp [List.length_cons]; omega
  have hgt : bs.length + 1 < n + 1 := by omega
  simp only [decodeBytes]
  rw [hf]
  interval_cases n <;>
    simp_all [decodeAux, DatastreamReader.read_tag, DatastreamReader.ensure,
      DatastreamReader.read_slice, DatastreamReader.read_utf8, bind, Except.bind,
      Except.map]

theorem decode_inline_data_truncated (n : Nat) (bs : List Nat) (hn : n ≤ 32)
    (h : bs.length < n) : decodeBytes ((0x70 + n) :: bs) = .error .valueError := by
  have hf : 2 * ((0x70 + n) :: bs).length + 2 = (2 * bs.length + 3) + 1 := by
    simp [List.length_cons]; omega
  have hgt : bs.length + 1 < n + 1 := by omega
  simp only [decodeBytes]
  rw [hf]
  interval_cases n <;>
    simp_all [decodeAux, DatastreamReader.read_tag, DatastreamReader.ensure,
      DatastreamReader.read_slice, bind, Except.bind, Except.map]

theorem decode_len8_str_truncated (n : Nat) (bs : List Nat) (_hn : n ≤ 255)
    (h : bs.length < n) : decodeBytes (0x61 :: n :: bs) = .error .valueError := by
  have hf : 2 * (0x61 :: n :: bs).length + 2 = (2 * bs.length + 5) + 1 := by
    simp [List.length_cons]; omega
  have h2 : ¬ (bs.length + 2 < 2) := by omega
  have hgt : bs.length + 1 + 1 < 2 + n := by omega
  simp only [decodeBytes]
  rw [hf]
  simp [decodeAux, DatastreamReader.read_tag, DatastreamReader.ensure,
    DatastreamReader.read_slice, DatastreamReader.read_utf8, leToNat, h2, hgt,
    bind, Except.bind, Except.map]

theorem decode_nul_str_unterminated (bs : List Nat) (hb : ∀ b ∈ bs, b ≠ 0) :
    decodeBytes (0x6F :: bs) = .error .valueError := by
  have hf : 2 * (0x6F :: bs).length + 2 = (2 * bs.length + 3) + 1 := by
    simp [List.length_cons]; omega
  have hfind : bs.findIdx? (· == 0) = Option.none := by
    rw [List.findIdx?_eq_none_iff]
    intro x hx
    simp [hb x hx]
  simp only [decodeBytes]
  rw [hf]
  simp [decodeAux, DatastreamReader.read_tag, DatastreamReader.ensure,
    DatastreamReader.read_slice, hfind, bind, Except.bind, Except.map]

theorem decode_data_unterminated (bs : List Nat) (hb : ∀ b ∈ bs, b ≠ 3) :
    decodeBytes (0x9F :: bs) = .error .valueError := by
  have hf : 2 * (0x9F :: bs).length + 2 = (2 * bs.length + 3) + 1 := by
    simp [List.length_cons]; omega
  have hfind : bs.findIdx? (· == 3) = Option.none := by
    rw [List.findIdx?_eq_none_iff]
    intro x hx
    simp [hb x hx]
  simp only [decodeBytes]
  rw [hf]
  simp [decodeAux, DatastreamReader.read_tag, DatastreamReader.ensure,
    DatastreamReader.read_slice, hfind, bind, Except.bind, Except.map]

theorem decode_inline_str_bad_utf8 (n : Nat) (bs : List Nat) (hn : n ≤ 32)
    (hlen : bs.length = n) (hu : utf8Dec bs = Option.none) :
    decodeBytes ((0x40 + n) :: bs) = .error .unicodeDecodeError := by
  have hf : 2 * ((0x40 + n) :: bs).length + 2 = (2 * bs.length + 3) + 1 := by
    simp [List.length_cons]; omega
  have htake : bs.take n = bs := by rw [← hlen]; exact List.take_length bs
  simp only [decodeBytes]
  rw [hf]
  interval_cases n <;>
    simp [decodeAux, DatastreamReader.read_tag, DatastreamReader.ensure,
      DatastreamReader.read_slice, DatastreamReader.read_utf8, hlen, htake, hu,
      bind, Except.bind, Except.map]

theorem decode_backref_empty (t : Nat) (h1 : 0xA0 ≤ t) (h2 : t ≤ 0xCF) :
    decodeBytes [t] = .error .indexError := by
  interval_cases t <;> rfl

theorem decode_backref_one (t : Nat) (h1 : 0xA1 ≤ t) (h2 : t ≤ 0xCF) :
    decodeBytes [0xD2, 0x01, t] = .error .indexError := by
  interval_cases t <;> rfl

theorem decode_unassigned_none :
    ∀ t ∈ unassigned_tags, decodeBytes [t] = .ok .pynone := by
  intro t ht
  fin_cases ht <;> rfl


/-! ## Claim theorems -/

/-- C1: decode-after-encode is not the identity on the supported opack
values: the plain integer 39 is encoded by write_number as the single
unassigned tag byte 0x2F (its inline range runs to 39, while the
decoder's inline range stops at 0x2E), and the decoder turns that byte
into Python None — no error, and not the integer 39. -/
theorem c1_roundtrip_fails_at_39 :
    encodeBytes (.int 39) = .ok [0x2F] ∧
    (encodeBytes (.int 39)).bind decodeBytes = .ok .pynone ∧
    PyValue.pynone ≠ PyValue.int 39 :=
  ⟨rfl, rfl, fun h => PyValue.noConfusion h⟩

/-- C2 counterexample: two of the malformed-input kinds the claim says
the decoder rejects are in fact decoded without error — an unassigned
tag byte (0x2F) yields Python None, and a 0xEF-terminated dictionary
with an odd item count silently drops the dangling key. -/
theorem c2_counterexample_decode_accepts :
    decodeBytes [0x2F] = .ok .pynone ∧
    decodeBytes [0xEF, 0x41, 97, 0x08, 0x41, 98, 0x03] =
      .ok (.dict [(.str [97], .int 0)]) :=
  ⟨rfl, rfl⟩

/-- C2 (amended): the decoder raises for the INVALID tag 0x00, for input
truncated before the bytes a tag requires, for a string payload that is
not valid UTF-8, and for a back-reference at or past the number of
scalars decoded so far; but a tag byte unassigned in the tag table other
than 0x00 is decoded as Python None without error, and a 0xEF-terminated
dictionary whose items number an odd count is decoded without error,
silently dropping the unpaired trailing key. -/
theorem c2_decode_rejections_amended :
    decodeBytes [0x00] = .error .valueError ∧
    (∀ t ∈ unassigned_tags, decodeBytes [t] = .ok .pynone) ∧
    decodeBytes [0x30] = .error .valueError ∧
    (∀ bs : List Nat, bs.length < 2 → decodeBytes (0x31 :: bs) = .error .valueError) ∧
    (∀ bs : List Nat, bs.length < 4 → decodeBytes (0x32 :: bs) = .error .valueError) ∧
    (∀ bs : List Nat, bs.length < 8 → decodeBytes (0x33 :: bs) = .error .valueError) ∧
    (∀ bs : List Nat, bs.length < 16 → decodeBytes (0x05 :: bs) = .error .valueError) ∧
    (∀ bs : List Nat, bs.length < 8 → decodeBytes (0x06 :: bs) = .error .valueError) ∧
    (∀ bs : List Nat, bs.length < 4 → decodeBytes (0x35 :: bs) = .error .valueError) ∧
    (∀ bs : List Nat, bs.length < 8 → decodeBytes (0x36 :: bs) = .error .valueError) ∧
    (∀ n, ∀ bs : List Nat, n ≤ 32 → bs.length < n →
      decodeBytes ((0x40 + n) :: bs) = .error .valueError) ∧
    (∀ n, ∀ bs : List Nat, n ≤ 255 → bs.length < n →
      decodeBytes (0x61 :: n :: bs) = .error .valueError) ∧
    (∀ n, ∀ bs : List Nat, n ≤ 32 → bs.length < n →
      decodeBytes ((0x70 + n) :: bs) = .error .valueError) ∧
    (∀ bs : List Nat, (∀ b ∈ bs, b ≠ 0) →
      decodeBytes (0x6F :: bs) = .error .valueError) ∧
    (∀ bs : List Nat, (∀ b ∈ bs, b ≠ 3) →
      decodeBytes (0x9F :: bs) = .error .valueError) ∧
    (∀ n, ∀ bs : List Nat, n ≤ 32 → bs.length = n → utf8Dec bs = Option.none →
      decodeBytes ((0x40 + n) :: bs) = .error .unicodeDecodeError) ∧
    (∀ t, 0xA0 ≤ t → t ≤ 0xCF → decodeBytes [t] = .error .indexError) ∧
    (∀ t, 0xA1 ≤ t → t ≤ 0xCF → decodeBytes [0xD2, 0x01, t] = .error .indexError) ∧
    decodeBytes [0xEF, 0x41, 97, 0x08, 0x41, 98, 0x03] =
      .ok (.dict [(.str [97], .int 0)]) :=
  ⟨rfl, decode_unassigned_none, rfl,
   decode_int16_truncated, decode_int32_truncated, decode_int64_truncated,
   decode_uuid_truncated, decode_date_truncated,
   decode_float32_truncated, decode_float64_truncated,
   decode_inline_str_truncated, decode_len8_str_truncated,
   decode_inline_data_truncated,
   decode_nul_str_unterminated, decode_data_unterminated,
   decode_inline_str_bad_utf8, decode_backref_empty, decode_backref_one, rfl⟩

/-- C2 witness: the amended rejection theorem applied at concrete
malformed inputs. -/
theorem c2_decode_rejections_witness :
    decodeBytes [0x31, 5] = .error .valueError ∧
    decodeBytes [0x41, 0xFF] = .error .unicodeDecodeError ∧
    decodeBytes [0xA5] = .error .indexError ∧
    decodeBytes [0x6F, 65, 66] = .error .valueError := by
  obtain ⟨-, -, -, hint16, -, -, -, -, -, -, -, -, -, hnul, -, hutf8, hback, -, -⟩ :=
    c2_decode_rejections_amended
  refine ⟨hint16 [5] (by simp), hutf8 1 [0xFF] (by omega) (by rfl) (by rfl),
    hback 0xA5 (by omega) (by omega), hnul [65, 66] ?_⟩
  intro b hb
  fin_cases hb <;> simp

/-- C3: each boundary integer is encoded with the smallest encoding of
the tag table, except 39: the claim (and spec) require INT8 there, but
write_number's inline range extends to 39 and emits the single byte 0x2F,
a tag assigned to nothing in the table.  Strings at the boundary lengths
0, 1, 32, 33, 255, 256, 65535, 65536 do produce the claimed tag bytes
0x40, 0x41, 0x60, 0x61, 0x61, 0x62, 0x62, 0x63. -/
theorem c3_boundary_encodings :
    encodeBytes (.int (-1)) = .ok [0x07] ∧
    encodeBytes (.int 0) = .ok [0x08] ∧
    encodeBytes (.int 38) = .ok [0x2E] ∧
    encodeBytes (.int 39) = .ok [0x2F] ∧
    encodeBytes (.int 127) = .ok [0x30, 127] ∧
    encodeBytes (.int 128) = .ok [0x31, 128, 0] ∧
    encodeBytes (.int 32767) = .ok [0x31, 0xFF, 0x7F] ∧
    encodeBytes (.int 32768) = .ok [0x32, 0, 0x80, 0, 0] ∧
    encodeBytes (.int 2147483647) = .ok [0x32, 0xFF, 0xFF, 0xFF, 0x7F] ∧
    encodeBytes (.int 2147483648) = .ok [0x33, 0, 0, 0, 0x80, 0, 0, 0, 0] ∧
    decodeBytes [0x2F] = .ok .pynone ∧
    (encodeBytes (.str (List.replicate 0 97))).map List.head? = .ok (some 0x40) ∧
    (encodeBytes (.str (List.replicate 1 97))).map List.head? = .ok (some 0x41) ∧
    (encodeBytes (.str (List.replicate 32 97))).map List.head? = .ok (some 0x60) ∧
    (encodeBytes (.str (List.replicate 33 97))).map List.head? = .ok (some 0x61) ∧
    (encodeBytes (.str (List.replicate 255 97))).map List.head? = .ok (some 0x61) ∧
    (encodeBytes (.str (List.replicate 256 97))).map List.head? = .ok (some 0x62) ∧
    (encodeBytes (.str (List.replicate 65535 97))).map List.head? = .ok (some 0x62) ∧
    (encodeBytes (.str (List.replicate 65536 97))).map List.head? = .ok (some 0x63) := by
  refine ⟨rfl, rfl, rfl, rfl, rfl, rfl, rfl, rfl, rfl, rfl, rfl,
    ?_, ?_, ?_, ?_, ?_, ?_, ?_, ?_⟩ <;>
  · rw [encode_str_tag_byte _ _ (utf8Enc_replicate_a _)
      (by simp only [List.length_replicate]; omega)]
    simp only [List.length_replicate]
    norm_num

/-! ## Crypto and framing lemmas (claims C4, C5, C10) -/

/-- Case analysis of HDSCrypto.decrypt. -/
theorem decrypt_cases (c : HDSCrypto) (f : HDSFrame) :
    (f.plaintext_payload.isSome ∧ c.decrypt f = (true, c, f)) ∨
    (f.plaintext_payload = Option.none ∧
      (∃ p, c.aead_open c.in_nonce f.header (f.ciphered_payload ++ f.auth_tag) = some p ∧
        c.decrypt f =
          (true, { c with in_nonce := c.in_nonce + 1 },
           { f with plaintext_payload := some p }))) ∨
    (f.plaintext_payload = Option.none ∧
      c.aead_open c.in_nonce f.header (f.ciphered_payload ++ f.auth_tag) = Option.none ∧
      c.decrypt f = (false, c, f)) := by
  by_cases hp : f.plaintext_payload.isSome
  · exact Or.inl ⟨hp, by simp [HDSCrypto.decrypt, hp]⟩
  · have hp2 : f.plaintext_payload = Option.none := by
      cases h : f.plaintext_payload
      · rfl
      · rw [h] at hp; simp at hp
    cases ho : c.aead_open c.in_nonce f.header (f.ciphered_payload ++ f.auth_tag) with
    | none => exact Or.inr (Or.inr ⟨hp2, rfl, by simp [HDSCrypto.decrypt, hp, ho]⟩)
    | some p =>
      exact Or.inr (Or.inl ⟨hp2, p, rfl, by simp [HDSCrypto.decrypt, hp, ho]⟩)

theorem newly_opened_self (fs : List HDSFrame) : newly_opened fs fs = 0 := by
  induction fs with
  | nil => rfl
  | cons f fs ih =>
    simp only [newly_opened, ih]
    have : ¬ (f.plaintext_payload.isNone ∧ f.plaintext_payload.isSome) := by
      cases h : f.plaintext_payload <;> simp [h]
    simp [this]

theorem decrypt_frames_nonce (fs : List HDSFrame) :
    ∀ c : HDSCrypto,
      (decrypt_frames c fs).2.1.in_nonce =
        c.in_nonce + newly_opened fs (decrypt_frames c fs).2.2 := by
  induction fs with
  | nil => intro c; simp [decrypt_frames, newly_opened]
  | cons f fs ih =>
    intro c
    rcases decrypt_cases c f with ⟨hp, hd⟩ | ⟨hp, p, ho, hd⟩ | ⟨hp, ho, hd⟩
    · have hcnt : ¬ (f.plaintext_payload.isNone ∧ f.plaintext_payload.isSome) := by
        cases h : f.plaintext_payload with
        | none => rw [h] at hp; simp at hp
        | some p => simp [h]
      simp only [decrypt_frames, hd]
      simp [newly_opened, hcnt, ih c]
    · simp only [decrypt_frames, hd, if_true]
      rw [ih ({ c with in_nonce := c.in_nonce + 1 })]
      simp only [newly_opened, hp]
      simp
      exact Nat.add_assoc _ _ _
    · simp only [decrypt_frames, hd]
      simp [newly_opened, hp, ho, newly_opened_self]

theorem decrypt_failure_no_change (c : HDSCrypto) (f : HDSFrame)
    (h : (c.decrypt f).1 = false) : c.decrypt f = (false, c, f) := by
  rcases decrypt_cases c f with ⟨_, hd⟩ | ⟨_, _, _, hd⟩ | ⟨_, _, hd⟩
  · rw [hd] at h; simp at h
  · rw [hd] at h; simp at h
  · exact hd

theorem encrypt_frames_nonce (fs : List HDSFrame) :
    ∀ c : HDSCrypto, (encrypt_frames c fs).1.out_nonce = c.out_nonce + fs.length := by
  induction fs with
  | nil => intro c; simp [encrypt_frames]
  | cons f fs ih =>
    intro c
    simp only [encrypt_frames]
    simp [ih, HDSCrypto.encrypt]
    omega

theorem decode_frames_aux_mem (fuel : Nat) :
    ∀ buf : List Nat, ∀ f ∈ (decode_frames_aux fuel buf).1,
      f.header.headD 0 = 1 ∧ f.plaintext_payload = Option.none := by
  induction fuel with
  | zero => intro buf f hf; simp [decode_frames_aux] at hf
  | succ n ih =>
    intro buf f hf
    simp only [decode_frames_aux] at hf
    by_cases h16 : buf.length ≥ 16
    · rw [if_pos h16] at hf
      by_cases hlen : buf.length < 4 + beToNat ((buf.drop 1).take 3) + 16
      · rw [if_pos hlen] at hf
        simp at hf
      · rw [if_neg hlen] at hf
        by_cases htag : buf.headD 0 = 1
        · rw [if_pos htag] at hf
          rcases List.mem_cons.mp hf with heq | hmem
          · subst heq
            refine ⟨?_, rfl⟩
            cases buf with
            | nil => simp at h16
            | cons b rest => simpa using htag
          · exact ih _ f hmem
        · rw [if_neg htag] at hf
          exact ih _ f hf
    · rw [if_neg h16] at hf
      simp at hf

theorem decode_frames_mem (buf : List Nat) :
    ∀ f ∈ (decode_frames buf).1,
      f.header.headD 0 = 1 ∧ f.plaintext_payload = Option.none :=
  decode_frames_aux_mem _ buf

/-- identify_session when no prepared session's cipher opens the frame:
nothing is returned and every session (and the frame) is unchanged. -/
theorem identify_session_no_match (f : HDSFrame)
    (hf : f.plaintext_payload = Option.none) :
    ∀ sessions : List DatastreamSession,
      (∀ s ∈ sessions,
        s.crypto.aead_open s.crypto.in_nonce f.header
          (f.ciphered_payload ++ f.auth_tag) = Option.none) →
      identify_session f sessions = (Option.none, sessions, f) := by
  intro sessions
  induction sessions with
  | nil => intro _; rfl
  | cons s rest ih =>
    intro hall
    have hd : s.crypto.decrypt f = (false, s.crypto, f) := by
      rcases decrypt_cases s.crypto f with ⟨hp, _⟩ | ⟨_, p, ho, _⟩ | ⟨_, _, hd⟩
      · rw [hf] at hp; simp at hp
      · rw [hall s (by simp)] at ho; simp at ho
      · exact hd
    simp only [identify_session, hd]
    rw [ih (fun s1 hs1 => hall s1 (List.mem_cons_of_mem _ hs1))]
    simp

/-- identify_session when the frame is opened by the first matching
session: that session is returned with its nonce advanced and its
connect timer cancelled, it is removed from the list, and the frame is
filled with the recovered plaintext. -/
theorem identify_session_first_match (f : HDSFrame)
    (hf : f.plaintext_payload = Option.none) :
    ∀ (pre : List DatastreamSession) (s : DatastreamSession)
      (post : List DatastreamSession) (p : List Nat),
      (∀ s1 ∈ pre,
        s1.crypto.aead_open s1.crypto.in_nonce f.header
          (f.ciphered_payload ++ f.auth_tag) = Option.none) →
      s.crypto.aead_open s.crypto.in_nonce f.header
        (f.ciphered_payload ++ f.auth_tag) = some p →
      identify_session f (pre ++ s :: post) =
        (some
          { s with
            crypto := { s.crypto with in_nonce := s.crypto.in_nonce + 1 }
            connection_task := Option.none },
         pre ++ post, { f with plaintext_payload := some p }) := by
  intro pre
  induction pre with
  | nil =>
    intro s post p _ hs
    have hd : s.crypto.decrypt f =
        (true, { s.crypto with in_nonce := s.crypto.in_nonce + 1 },
         { f with plaintext_payload := some p }) := by
      rcases decrypt_cases s.crypto f with ⟨hp, _⟩ | ⟨_, q, ho, hd⟩ | ⟨_, ho, _⟩
      · rw [hf] at hp; simp at hp
      · rw [hs] at ho
        cases ho
        exact hd
      · rw [hs] at ho; simp at ho
    simp [identify_session, hd]
  | cons s1 rest ih =>
    intro s post p hpre hs
    have hd1 : s1.crypto.decrypt f = (false, s1.crypto, f) := by
      rcases decrypt_cases s1.crypto f with ⟨hp, _⟩ | ⟨_, q, ho, _⟩ | ⟨_, _, hd⟩
      · rw [hf] at hp; simp at hp
      · rw [hpre s1 (by simp)] at ho; simp at ho
      · exact hd
    simp only [List.cons_append, identify_session, hd1, List.append_eq]
    rw [ih s post p (fun s2 hs2 => hpre s2 (List.mem_cons_of_mem _ hs2)) hs]
    simp

/-- data_received on an unidentified connection when no prepared session
matches the first frame: the connection moves to CLOSING and the
prepared set is returned unchanged. -/
theorem data_received_no_match (sessions : List DatastreamSession) (conn : ConnModel)
    (data : List Nat) (f0 : HDSFrame) (rest : List HDSFrame) (buf2 : List Nat)
    (hstate : conn.state = .unidentified)
    (hsplit : decode_frames (conn.buffer ++ data) = (f0 :: rest, buf2))
    (hf : f0.plaintext_payload = Option.none)
    (hall : ∀ s ∈ sessions,
      s.crypto.aead_open s.crypto.in_nonce f0.header
        (f0.ciphered_payload ++ f0.auth_tag) = Option.none) :
    data_received_frames sessions conn data =
      .ok (sessions, { conn with buffer := buf2, state := .closing }, []) := by
  unfold data_received_frames
  rw [hsplit]
  simp only [hstate]
  rw [identify_session_no_match f0 hf sessions hall]
  simp

/-- data_received on an unidentified connection when a prepared session
matches the first frame: the matching session (nonce advanced, timer
cancelled, crypto then advanced further by decrypting the frames) is
bound into the connection and removed from the prepared set. -/
theorem data_received_match_binds (sessions : List DatastreamSession) (conn : ConnModel)
    (data : List Nat) (f0 : HDSFrame) (rest : List HDSFrame) (buf2 : List Nat)
    (pre : List DatastreamSession) (s : DatastreamSession)
    (post : List DatastreamSession) (p : List Nat)
    (hstate : conn.state = .unidentified)
    (hsess : sessions = pre ++ s :: post)
    (hsplit : decode_frames (conn.buffer ++ data) = (f0 :: rest, buf2))
    (hf : f0.plaintext_payload = Option.none)
    (hpre : ∀ s1 ∈ pre,
      s1.crypto.aead_open s1.crypto.in_nonce f0.header
        (f0.ciphered_payload ++ f0.auth_tag) = Option.none)
    (hs : s.crypto.aead_open s.crypto.in_nonce f0.header
      (f0.ciphered_payload ++ f0.auth_tag) = some p) :
    ∃ (st : ConnectionState) (c2 : HDSCrypto) (frames1 : List HDSFrame),
      data_received_frames sessions conn data =
        .ok (pre ++ post,
          { state := st,
            session := some { s with crypto := c2, connection_task := Option.none },
            buffer := buf2 },
          frames1) := by
  subst hsess
  unfold data_received_frames
  rw [hsplit]
  simp only [hstate]
  rw [identify_session_first_match f0 hf pre s post p hpre hs]
  simp only [if_true]
  unfold decrypt_stage
  simp only []
  rcases hdec : decrypt_frames
      ({ s with
          crypto := { s.crypto with in_nonce := s.crypto.in_nonce + 1 }
          connection_task := Option.none } : DatastreamSession).crypto
      ({ f0 with plaintext_payload := some p } :: rest) with ⟨ok1, c2, frames1⟩
  by_cases hok : ok1 = true
  · subst hok
    exact ⟨.expecting_hello, c2, frames1, by simp [hdec]⟩
  · have hok2 : ok1 = false := by cases ok1 <;> simp_all
    subst hok2
    exact ⟨.closing, c2, [], by simp [hdec]⟩

/-- C4: per direction the nonce counter counts exactly the AEAD
operations performed: (i) frames extracted by decode_frames all carry
payload-type byte 0x01 and reach the crypto unopened — non-0x01 frames
are dropped by the framing code, which performs no AEAD operation;
(ii) running the data_received decryption loop advances the inbound
nonce by exactly the number of frames whose plaintext went from unset to
set (already-open frames and the failed frame advance nothing);
(iii) a failed trial decryption changes neither the crypto state nor the
frame; (iv) sealing N outbound frames advances the outbound nonce by
exactly N. -/
theorem c4_nonce_equals_aead_operations :
    (∀ buf : List Nat, ∀ f ∈ (decode_frames buf).1,
      f.header.headD 0 = 1 ∧ f.plaintext_payload = Option.none) ∧
    (∀ (c : HDSCrypto) (fs : List HDSFrame),
      (decrypt_frames c fs).2.1.in_nonce =
        c.in_nonce + newly_opened fs (decrypt_frames c fs).2.2) ∧
    (∀ (c : HDSCrypto) (f : HDSFrame),
      (c.decrypt f).1 = false → c.decrypt f = (false, c, f)) ∧
    (∀ (c : HDSCrypto) (fs : List HDSFrame),
      (encrypt_frames c fs).1.out_nonce = c.out_nonce + fs.length) :=
  ⟨decode_frames_mem, fun c fs => decrypt_frames_nonce fs c,
   decrypt_failure_no_change, fun c fs => encrypt_frames_nonce fs c⟩

/-- C4 witness: the nonce accounting applied to a concrete buffer
holding one well-formed frame and one unknown-payload-type frame, and a
concrete failing decryption. -/
theorem c4_nonce_equals_aead_operations_witness :
    ((⟨[1, 0, 0, 1], [7], List.replicate 16 0, Option.none⟩ : HDSFrame).header.headD 0 = 1 ∧
      (⟨[1, 0, 0, 1], [7], List.replicate 16 0, Option.none⟩ : HDSFrame).plaintext_payload
        = Option.none) ∧
    ((⟨fun _ _ _ => Option.none, fun _ _ pl => pl, 5, 0⟩ : HDSCrypto).decrypt
        ⟨[1], [2], [3], Option.none⟩ =
      (false, ⟨fun _ _ _ => Option.none, fun _ _ pl => pl, 5, 0⟩,
        ⟨[1], [2], [3], Option.none⟩)) := by
  obtain ⟨h1, -, h3, -⟩ := c4_nonce_equals_aead_operations
  constructor
  · exact h1 ([1, 0, 0, 1] ++ [7] ++ List.replicate 16 0 ++ [2, 0, 0, 0] ++ List.replicate 16 0)
      ⟨[1, 0, 0, 1], [7], List.replicate 16 0, Option.none⟩ (by decide)
  · exact h3 _ _ rfl

/-- C5: on an unidentified connection, the first prepared session (in
list order) whose read cipher opens the first frame at nonce 0 is bound:
identify_session returns it with its nonce advanced to 1 and its connect
timer cancelled, the prepared list loses exactly that session, and
data_received stores it into the connection; when no prepared session
opens the frame, identify_session returns None with every session
unchanged and data_received closes the connection, leaving the prepared
set as it was. -/
theorem c5_first_frame_identification :
    (∀ (f : HDSFrame) (sessions : List DatastreamSession),
      f.plaintext_payload = Option.none →
      (∀ s ∈ sessions, s.crypto.in_nonce = 0) →
      (∀ s ∈ sessions,
        s.crypto.aead_open 0 f.header (f.ciphered_payload ++ f.auth_tag) = Option.none) →
      identify_session f sessions = (Option.none, sessions, f)) ∧
    (∀ (f : HDSFrame) (pre : List DatastreamSession) (s : DatastreamSession)
        (post : List DatastreamSession) (p : List Nat),
      f.plaintext_payload = Option.none →
      (∀ s1 ∈ pre ++ s :: post, s1.crypto.in_nonce = 0) →
      (∀ s1 ∈ pre,
        s1.crypto.aead_open 0 f.header (f.ciphered_payload ++ f.auth_tag) = Option.none) →
      s.crypto.aead_open 0 f.header (f.ciphered_payload ++ f.auth_tag) = some p →
      identify_session f (pre ++ s :: post) =
        (some
          { s with
            crypto := { s.crypto with in_nonce := 1 }
            connection_task := Option.none },
         pre ++ post, { f with plaintext_payload := some p })) ∧
    (∀ (sessions : List DatastreamSession) (conn : ConnModel) (data : List Nat)
        (f0 : HDSFrame) (rest : List HDSFrame) (buf2 : List Nat),
      conn.state = .unidentified →
      decode_frames (conn.buffer ++ data) = (f0 :: rest, buf2) →
      f0.plaintext_payload = Option.none →
      (∀ s ∈ sessions, s.crypto.in_nonce = 0) →
      (∀ s ∈ sessions,
        s.crypto.aead_open 0 f0.header (f0.ciphered_payload ++ f0.auth_tag) = Option.none) →
      data_received_frames sessions conn data =
        .ok (sessions, { conn with buffer := buf2, state := .closing }, [])) ∧
    (∀ (sessions : List DatastreamSession) (conn : ConnModel) (data : List Nat)
        (f0 : HDSFrame) (rest : List HDSFrame) (buf2 : List Nat)
        (pre : List DatastreamSession) (s : DatastreamSession)
        (post : List DatastreamSession) (p : List Nat),
      conn.state = .unidentified →
      sessions = pre ++ s :: post →
      decode_frames (conn.buffer ++ data) = (f0 :: rest, buf2) →
      f0.plaintext_payload = Option.none →
      (∀ s1 ∈ pre,
        s1.crypto.aead_open s1.crypto.in_nonce f0.header
          (f0.ciphered_payload ++ f0.auth_tag) = Option.none) →
      s.crypto.aead_open s.crypto.in_nonce f0.header
        (f0.ciphered_payload ++ f0.auth_tag) = some p →
      ∃ (st : ConnectionState) (c2 : HDSCrypto) (frames1 : List HDSFrame),
        data_received_frames sessions conn data =
          .ok (pre ++ post,
            { state := st,
              session := some { s with crypto := c2, connection_task := Option.none },
              buffer := buf2 },
            frames1)) := by
  refine ⟨?_, ?_, ?_, ?_⟩
  · intro f sessions hf hz hall
    exact identify_session_no_match f hf sessions
      (fun s1 hs1 => by rw [hz s1 hs1]; exact hall s1 hs1)
  · intro f pre s post p hf hz hpre hs
    have hzs : s.crypto.in_nonce = 0 := hz s (by simp)
    have h := identify_session_first_match f hf pre s post p
      (fun s1 hs1 => by
        rw [hz s1 (List.mem_append_left _ hs1)]
        exact hpre s1 hs1)
      (by rw [hzs]; exact hs)
    rw [hzs] at h
    simpa using h
  · intro sessions conn data f0 rest buf2 hstate hsplit hf hz hall
    exact data_received_no_match sessions conn data f0 rest buf2 hstate hsplit hf
      (fun s1 hs1 => by rw [hz s1 hs1]; exact hall s1 hs1)
  · intro sessions conn data f0 rest buf2 pre s post p hstate hsess hsplit hf hpre hs
    exact data_received_match_binds sessions conn data f0 rest buf2 pre s post p
      hstate hsess hsplit hf hpre hs

/-- C5 witness: a single prepared session at nonce 0 whose cipher opens
the frame is bound, removed, and its timer handle cleared. -/
theorem c5_first_frame_identification_witness :
    identify_session ⟨[1, 0, 0, 1], [7], [9], Option.none⟩
        [⟨⟨fun n _ ct => if n = 0 ∧ ct = [7, 9] then some [42] else Option.none,
           fun _ _ pl => pl, 0, 0⟩, some ()⟩] =
      (some ⟨⟨fun n _ ct => if n = 0 ∧ ct = [7, 9] then some [42] else Option.none,
             fun _ _ pl => pl, 1, 0⟩, Option.none⟩,
       [], ⟨[1, 0, 0, 1], [7], [9], some [42]⟩) := by
  obtain ⟨-, h2, -, -⟩ := c5_first_frame_identification
  have h := h2 ⟨[1, 0, 0, 1], [7], [9], Option.none⟩ []
    ⟨⟨fun n _ ct => if n = 0 ∧ ct = [7, 9] then some [42] else Option.none,
      fun _ _ pl => pl, 0, 0⟩, some ()⟩ [] [42] rfl
    (by intro s1 hs1; simp at hs1; subst hs1; rfl)
    (by intro s1 hs1; simp at hs1)
    rfl
  simpa using h

/-- C10: HDSCrypto.decrypt is a no-op returning True on a frame whose
plaintext is already set — whatever the AEAD open function would say,
the crypto state (nonce included) and the frame are unchanged — and
therefore the data_received decryption loop treats the already-opened
first frame as a pass-through, decrypting only the remaining frames. -/
theorem c10_decrypt_idempotent_on_open :
    (∀ (c : HDSCrypto) (f : HDSFrame) (pl : List Nat),
      f.plaintext_payload = some pl → c.decrypt f = (true, c, f)) ∧
    (∀ (c : HDSCrypto) (f : HDSFrame) (pl : List Nat)
        (open2 : Nat → List Nat → List Nat → Option (List Nat)),
      f.plaintext_payload = some pl →
      ({ c with aead_open := open2 } : HDSCrypto).decrypt f =
        (true, { c with aead_open := open2 }, f)) ∧
    (∀ (c : HDSCrypto) (f : HDSFrame) (pl : List Nat) (fs : List HDSFrame),
      f.plaintext_payload = some pl →
      decrypt_frames c (f :: fs) =
        ((decrypt_frames c fs).1, (decrypt_frames c fs).2.1,
         f :: (decrypt_frames c fs).2.2)) := by
  refine ⟨?_, ?_, ?_⟩
  · intro c f pl hp
    simp [HDSCrypto.decrypt, hp]
  · intro c f pl o2 hp
    simp [HDSCrypto.decrypt, hp]
  · intro c f pl fs hp
    have hd : c.decrypt f = (true, c, f) := by simp [HDSCrypto.decrypt, hp]
    rcases hX : decrypt_frames c fs with ⟨b, c2, fs2⟩
    simp [decrypt_frames, hd, hX]

/-- C10 witness: decrypting an already-opened frame with an
always-failing AEAD open still succeeds and changes nothing. -/
theorem c10_decrypt_idempotent_on_open_witness :
    (⟨fun _ _ _ => Option.none, fun _ _ pl => pl, 3, 7⟩ : HDSCrypto).decrypt
        ⟨[1], [2], [3], some [9]⟩ =
      (true, ⟨fun _ _ _ => Option.none, fun _ _ pl => pl, 3, 7⟩,
       ⟨[1], [2], [3], some [9]⟩) := by
  obtain ⟨h1, -, -⟩ := c10_decrypt_idempotent_on_open
  exact h1 _ _ [9] rfl

/-- C6: every call to send_request raises AttributeError before
allocating an id or registering anything: the generator condition on
line 292 reads self.request_handlers, an attribute that neither
__init__ nor the class defines (the waiter table is named
_response_handlers), so the claim's allocation behavior never happens. -/
theorem c6_send_request_attribute_error :
    "request_handlers" ∉ datastream_connection_attrs ∧
    ∀ (fuel : Nat) (rand : Nat → Nat) (handlers : List Nat),
      send_request fuel rand handlers = .error .attributeError := by
  refine ⟨by decide, ?_⟩
  intro fuel rand handlers
  simp only [send_request]
  rw [if_neg (by decide)]

/-- C7: _handle_data_send responds exactly as the claim lists, checked
in source order — UnexpectedFailure (5) for a wrong target or type,
NotAllowed (1) when recording is disabled, NotAllowed (1) when the
camera characteristic is OFF, Busy (2) when a recording stream exists,
InvalidConfiguration (9) with no selected configuration, and otherwise a
SUCCESS response with body status 0 and the recording stream started —
each with wire status PROTOCOL_SPECIFIC_ERROR (6) resp. SUCCESS (0). -/
theorem c7_handle_data_send_ladder :
    ∀ (req : DataSendOpenRequest) (st : RecordingState),
      ((req.target ≠ some "controller" ∨ req.stream_type ≠ some "ipcamera.recording") →
        handle_data_send req st = ⟨6, 5, false⟩) ∧
      (req.target = some "controller" → req.stream_type = some "ipcamera.recording" →
        st.recording_active = false →
        handle_data_send req st = ⟨6, 1, false⟩) ∧
      (req.target = some "controller" → req.stream_type = some "ipcamera.recording" →
        st.recording_active = true → st.camera_active_value = 0 →
        handle_data_send req st = ⟨6, 1, false⟩) ∧
      (req.target = some "controller" → req.stream_type = some "ipcamera.recording" →
        st.recording_active = true → st.camera_active_value ≠ 0 →
        st.recording_stream = true →
        handle_data_send req st = ⟨6, 2, false⟩) ∧
      (req.target = some "controller" → req.stream_type = some "ipcamera.recording" →
        st.recording_active = true → st.camera_active_value ≠ 0 →
        st.recording_stream = false → pyTruthyStr st.selected_config = false →
        handle_data_send req st = ⟨6, 9, false⟩) ∧
      (req.target = some "controller" → req.stream_type = some "ipcamera.recording" →
        st.recording_active = true → st.camera_active_value ≠ 0 →
        st.recording_stream = false → pyTruthyStr st.selected_config = true →
        handle_data_send req st = ⟨0, 0, true⟩) := by
  intro req st
  refine ⟨?_, ?_, ?_, ?_, ?_, ?_⟩
  · intro h
    simp [handle_data_send, HDSStatus.PROTOCOL_SPECIFIC_ERROR, HDSReason.UNEXPECTED_FAILURE, h]
  · intro h1 h2 h3
    simp [handle_data_send, h1, h2, h3, HDSStatus.PROTOCOL_SPECIFIC_ERROR,
      HDSReason.NOT_ALLOWED]
  · intro h1 h2 h3 h4
    simp [handle_data_send, h1, h2, h3, h4, HomeKitCameraActive.OFF,
      HDSStatus.PROTOCOL_SPECIFIC_ERROR, HDSReason.NOT_ALLOWED]
  · intro h1 h2 h3 h4 h5
    simp [handle_data_send, h1, h2, h3, h4, h5, HomeKitCameraActive.OFF,
      HDSStatus.PROTOCOL_SPECIFIC_ERROR, HDSReason.BUSY]
  · intro h1 h2 h3 h4 h5 h6
    simp [handle_data_send, h1, h2, h3, h4, h5, h6, HomeKitCameraActive.OFF,
      HDSStatus.PROTOCOL_SPECIFIC_ERROR, HDSReason.INVALID_CONFIGURATION]
  · intro h1 h2 h3 h4 h5 h6
    simp [handle_data_send, h1, h2, h3, h4, h5, h6, HomeKitCameraActive.OFF,
      HDSStatus.SUCCESS]

/-- C7 witness: the ladder applied at concrete requests and states —
the spec's scenarios 1 (success), 2 (recording disabled) and 3 (busy). -/
theorem c7_handle_data_send_ladder_witness :
    handle_data_send ⟨some "controller", some "ipcamera.recording"⟩
        ⟨true, 1, false, some "cfg"⟩ = ⟨0, 0, true⟩ ∧
    handle_data_send ⟨some "controller", some "ipcamera.recording"⟩
        ⟨false, 1, false, some "cfg"⟩ = ⟨6, 1, false⟩ ∧
    handle_data_send ⟨some "controller", some "ipcamera.recording"⟩
        ⟨true, 1, true, some "cfg"⟩ = ⟨6, 2, false⟩ ∧
    handle_data_send ⟨some "offsite", some "ipcamera.recording"⟩
        ⟨true, 1, false, some "cfg"⟩ = ⟨6, 5, false⟩ := by
  obtain ⟨ha, hb, -, hd, -, hf⟩ :=
    c7_handle_data_send_ladder ⟨some "controller", some "ipcamera.recording"⟩
      ⟨true, 1, false, some "cfg"⟩
  obtain ⟨-, hb2, -, -, -, -⟩ :=
    c7_handle_data_send_ladder ⟨some "controller", some "ipcamera.recording"⟩
      ⟨false, 1, false, some "cfg"⟩
  obtain ⟨-, -, -, hd3, -, -⟩ :=
    c7_handle_data_send_ladder ⟨some "controller", some "ipcamera.recording"⟩
      ⟨true, 1, true, some "cfg"⟩
  obtain ⟨ha4, -, -, -, -, -⟩ :=
    c7_handle_data_send_ladder ⟨some "offsite", some "ipcamera.recording"⟩
      ⟨true, 1, false, some "cfg"⟩
  exact ⟨hf rfl rfl rfl (by decide) rfl (by decide),
    hb2 rfl rfl rfl,
    hd3 rfl rfl rfl (by decide) rfl,
    ha4 (by simp)⟩

/-- C9: on any setup TLV whose session-command byte or transport-type
byte is unrecognized (0x00 is the only member of either enum), the
handler raises ValueError from the eager Enum conversion instead of
returning InvalidValueInRequest — that return (lines 109-114) is
unreachable for every input — while a well-formed start request yields
the success TLV with the server's listening port and the session's
accessory salt. -/
theorem c9_setup_data_stream_transport :
    set_setup_data_stream_transport (some [0x01]) (some [0x00])
        (some (List.replicate 32 0)) 5000 (List.replicate 32 1) = .error .valueError ∧
    (∀ (cmd tt salt : Option (List Nat)) (port : Nat) (asalt : List Nat),
      set_setup_data_stream_transport cmd tt salt port asalt ≠
        .ok .invalid_value_in_request) ∧
    (∀ (salt : Option (List Nat)) (port : Nat) (asalt : List Nat),
      set_setup_data_stream_transport (some [0x00]) (some [0x00]) salt port asalt =
        .ok (.success port asalt)) ∧
    (∀ (tt salt : Option (List Nat)) (port : Nat) (asalt : List Nat),
      tt ≠ some [0x00] →
      set_setup_data_stream_transport (some [0x00]) tt salt port asalt =
        .error .valueError) := by
  refine ⟨rfl, ?_, ?_, ?_⟩
  · intro cmd tt salt port asalt
    cases cmd with
    | none =>
      simp [set_setup_data_stream_transport, SessionCommandType.ofValue, bind, Except.bind]
    | some bs =>
      by_cases hb : bs = [0x00]
      · subst hb
        cases tt with
        | none =>
          simp [set_setup_data_stream_transport, SessionCommandType.ofValue,
            TransportType.ofValue, bind, Except.bind]
        | some bt =>
          by_cases hbt : bt = [0x00]
          · subst hbt
            simp [set_setup_data_stream_transport, SessionCommandType.ofValue,
              TransportType.ofValue, bind, Except.bind]
          · simp [set_setup_data_stream_transport, SessionCommandType.ofValue,
              TransportType.ofValue, hbt, bind, Except.bind]
      · simp [set_setup_data_stream_transport, SessionCommandType.ofValue, hb,
          bind, Except.bind]
  · intro salt port asalt
    rfl
  · intro tt salt port asalt htt
    cases tt with
    | none =>
      simp [set_setup_data_stream_transport, SessionCommandType.ofValue,
        TransportType.ofValue, bind, Except.bind]
    | some bt =>
      have hbt : bt ≠ [0x00] := fun h => htt (by rw [h])
      simp [set_setup_data_stream_transport, SessionCommandType.ofValue,
        TransportType.ofValue, hbt, bind, Except.bind]

/-- C9 witness: the unreachable-return and error components applied at
concrete inputs. -/
theorem c9_setup_data_stream_transport_witness :
    set_setup_data_stream_transport (some [0x00]) (some [0x02])
        (some (List.replicate 32 0)) 40000 (List.replicate 32 9) = .error .valueError := by
  obtain ⟨-, -, -, h4⟩ := c9_setup_data_stream_transport
  exact h4 (some [0x02]) (some (List.replicate 32 0)) 40000 (List.replicate 32 9)
    (by decide)

/-! ## Recording stream lemmas (claim C8) -/

theorem chunks_of_nil : chunks_of [] = [] := by
  rw [chunks_of]
  rfl

theorem chunks_of_eq_nil_iff (l : List Nat) : chunks_of l = [] ↔ l = [] := by
  constructor
  · intro h
    rw [chunks_of] at h
    by_cases he : l.isEmpty
    · exact List.isEmpty_iff.mp he
    · simp [he] at h
  · intro h
    subst h
    exact chunks_of_nil

theorem chunk_loop_eq_label (sid : Int) (last : Bool) (fragment : List Nat) (seq : Nat) :
    ∀ (fuel offset cseq : Nat) (ini : Bool),
      offset ≤ fragment.length →
      fragment.length - offset ≤ fuel →
      chunk_loop sid last fragment seq fuel offset cseq ini =
        (label_chunks sid last fragment.length seq (chunks_of (fragment.drop offset))
           cseq ini,
         ini && (fragment.drop offset).isEmpty) := by
  intro fuel
  induction fuel with
  | zero =>
    intro offset cseq ini hle hfuel
    have hoff : fragment.length ≤ offset := by omega
    have hdrop : fragment.drop offset = [] := by
      rw [List.drop_eq_nil_iff]
      exact hoff
    simp [chunk_loop, hdrop, chunks_of_nil, label_chunks]
  | succ n ih =>
    intro offset cseq ini hle hfuel
    by_cases hlt : offset < fragment.length
    · have hdne : fragment.drop offset ≠ [] := by
        intro h
        rw [List.drop_eq_nil_iff] at h
        omega
      have hlendrop : (fragment.drop offset).length = fragment.length - offset := by
        simp
      have hdata : ((fragment.drop offset).take 0x40000).length
          = min 0x40000 (fragment.length - offset) := by
        simp
      rw [chunks_of]
      rw [dif_neg (by simp [List.isEmpty_iff, hdne])]
      simp only [chunk_loop, if_pos hlt, label_chunks]
      have hdd : (fragment.drop offset).drop 0x40000 = fragment.drop (offset + 0x40000) := by
        rw [List.drop_drop]
      have hlastiff : (offset + ((fragment.drop offset).take 0x40000).length ≥
            fragment.length) ↔
          chunks_of ((fragment.drop offset).drop 0x40000) = [] := by
        rw [chunks_of_eq_nil_iff, hdd, List.drop_eq_nil_iff, hdata]
        omega
      have hrec := ih (offset + ((fragment.drop offset).take 0x40000).length) (cseq + 1)
        false (by rw [hdata]; omega) (by rw [hdata]; omega)
      rw [hrec]
      have hdroprec : fragment.drop (offset + ((fragment.drop offset).take 0x40000).length)
          = (fragment.drop offset).drop 0x40000 := by
        rw [hdd, hdata]
        by_cases hm : 0x40000 ≤ fragment.length - offset
        · rw [Nat.min_eq_left hm]
        · have h1 : min 0x40000 (fragment.length - offset) = fragment.length - offset := by
            omega
          rw [h1]
          have h2 : fragment.drop (offset + (fragment.length - offset)) = [] := by
            rw [List.drop_eq_nil_iff]
            omega
          have h3 : fragment.drop (offset + 0x40000) = [] := by
            rw [List.drop_eq_nil_iff]
            omega
          rw [h2, h3]
      rw [hdroprec]
      have hne : (fragment.drop offset).isEmpty = false := by
        simp [List.isEmpty_iff, hdne]
      have hlast_eq : decide (offset + ((fragment.drop offset).take 0x40000).length ≥
            fragment.length)
          = decide (chunks_of ((fragment.drop offset).drop 0x40000) = []) :=
        decide_eq_decide.mpr hlastiff
      have hif_eq : (if offset + ((fragment.drop offset).take 0x40000).length ≥
              fragment.length then some last
            else (Option.none : Option Bool))
          = if chunks_of ((fragment.drop offset).drop 0x40000) = [] then some last
            else Option.none :=
        if_congr hlastiff rfl rfl
      rw [hlast_eq, hif_eq]
      simp only [Prod.mk.injEq]
      exact ⟨trivial, by simp [hne]⟩
    · have hdrop : fragment.drop offset = [] := by
        rw [List.drop_eq_nil_iff]
        omega
      simp [chunk_loop, hlt, hdrop, chunks_of_nil, label_chunks]

theorem packets_loop_eq_spec (sid : Int) :
    ∀ (packets : List RecordingPacket) (seq : Nat) (ini : Bool),
      packets_loop sid packets seq ini false = spec_stream_events_aux sid packets seq ini := by
  intro packets
  induction packets with
  | nil => intro seq ini; rfl
  | cons p ps ih =>
    intro seq ini
    have hc := chunk_loop_eq_label sid p.last p.data seq (p.data.length + 1) 0 1 ini
      (by omega) (by omega)
    rw [List.drop_zero] at hc
    simp only [packets_loop, Bool.false_eq_true, if_false, hc]
    by_cases hl : p.last = true
    · simp [hl, spec_stream_events_aux, spec_packet_events]
    · have hl2 : p.last = false := by cases h : p.last <;> simp_all
      simp [hl2, spec_stream_events_aux, spec_packet_events, ih]

/-- C8 counterexample: the claim as stated is false on the code — with
two one-byte packets, the final chunk of the first (non-last) packet
carries endOfStream = False, a boolean, where the claim requires null on
every event except the last chunk of the last packet; and with an empty
first packet, the first chunk of the second packet is labelled
mediaInitialization where the claim requires mediaFragment for every
chunk of packets after the first. -/
theorem c8_counterexample_events :
    ((stream_events 1 [⟨[0], false⟩, ⟨[1], true⟩]).head?.map (·.endOfStream)
      = some (some false)) ∧
    ((stream_events 1 [⟨[], false⟩, ⟨[1], true⟩]).head?.map (·.metadata.dataType)
      = some "mediaInitialization") :=
  ⟨rfl, rfl⟩

/-- C8 (amended): for every delegate packet sequence, the emitted
dataSend.data events are exactly the specification-side list: each
packet's bytes cut into chunks of at most 262144 bytes, one event per
chunk; dataSequenceNumber and dataChunkSequenceNumber 1-based;
isLastDataChunk true exactly on a packet's final chunk; dataTotalSize
the packet length on chunk 1 of each packet and null otherwise; dataType
mediaInitialization exactly on the first chunk event the stream emits
and mediaFragment on every later one; endOfStream the packet's last flag
on each packet's final chunk and null elsewhere; and the stream stops
with the first packet whose last flag is set. -/
theorem c8_stream_events_amended (stream_id : Int) (packets : List RecordingPacket) :
    stream_events stream_id packets = spec_stream_events stream_id packets :=
  packets_loop_eq_spec stream_id packets 1 true

end HAP





